import Mathlib

/-!
Shallow embedding of the Swagger/OpenAPI normalisation and field-view
projection pipeline of the repository (frontend/src/lib/converters):
`SwaggerToJSONConverter` (swagger-to-json.ts) and `FieldViewConverter`
(field-view-converter.ts), together with the TypeScript entity types
(types.ts).  JavaScript objects are modelled as association lists in
insertion order; JavaScript `Set` as `Finset String`; absent (`undefined`)
fields as `Option`; JavaScript string truthiness (`''` is falsy) explicitly.
Fields of the source that are opaque passthrough data never inspected by
the embedded code paths (`format`, `maxItems`, `minItems`, `example` on
schemas, `style`/`explode` on parameters, `security`, `flows`) are omitted;
every field that any embedded function reads or branches on is modelled.
-/

/-- JavaScript string truthiness for an optional string field:
`undefined` and the empty string are falsy. -/
def jsTruthyS : Option String → Bool
  | none => false
  | some s => s ≠ ""

/-- JavaScript `a || b` for optional strings (first truthy operand). -/
def jsOrS (a b : Option String) : Option String :=
  if jsTruthyS a then a else b

/-- JavaScript `a || d` with a string default (`x.y || 'd'`). -/
def jsOrD (a : Option String) (d : String) : String :=
  if h : jsTruthyS a then a.get (by cases a <;> simp_all [jsTruthyS]) else d

/-- JavaScript object key assignment `o[k] = v` on an association list:
overwrite in place if the key exists, otherwise append. -/
def jset {α : Type} (l : List (String × α)) (k : String) (v : α) :
    List (String × α) :=
  if l.any (fun p => p.1 = k) then
    l.map (fun p => if p.1 = k then (k, v) else p)
  else
    l ++ [(k, v)]

/-- JavaScript object property read `o[k]` on an association list. -/
def jget {α : Type} (l : List (String × α)) (k : String) : Option α :=
  (l.find? (fun p => p.1 = k)).map (fun p => p.2)

/-- Split a character list at the first occurrence of `pat`: the part
before and the part after (used to model the JavaScript string methods
on the ASCII data handled here). -/
def firstSplit : List Char → List Char → Option (List Char × List Char)
  | s, pat =>
    if s.take pat.length = pat then some ([], s.drop pat.length)
    else match s with
      | [] => none
      | c :: rest => (firstSplit rest pat).map (fun pr => (c :: pr.1, pr.2))

/-- JavaScript `String.prototype.replace` with a plain string pattern:
replace the first occurrence only. -/
def replaceFirst (s pat repl : String) : String :=
  match firstSplit s.data pat.data with
  | none => s
  | some (a, b) => ⟨a ++ repl.data ++ b⟩

/-- JavaScript `String.prototype.includes`. -/
def jsIncludes (s sub : String) : Bool :=
  (firstSplit s.data sub.data).isSome

/-- JavaScript `String.prototype.startsWith`. -/
def jsStartsWith (s p : String) : Bool :=
  s.data.take p.data.length = p.data

/-- JavaScript `String.prototype.toLowerCase` (ASCII data). -/
def jsToLower (s : String) : String := ⟨s.data.map Char.toLower⟩

/-- JavaScript `String.prototype.toUpperCase` (ASCII data). -/
def jsToUpper (s : String) : String := ⟨s.data.map Char.toUpper⟩

/-- The JavaScript `ref.split('/').pop()`: the segment after the last `/` (the whole
string when there is none). -/
def lastSegment (s : String) : String :=
  ⟨(s.data.reverse.takeWhile (fun c => c ≠ '/')).reverse⟩

/-- The identifier sanitisation of `generateId`:
`name.toLowerCase().replace(/[^a-z0-9]/g, '-')`. -/
def sanitizeId (name : String) : String :=
  ⟨(name.data.map Char.toLower).map (fun c =>
    if ('a' ≤ c ∧ c ≤ 'z') ∨ ('0' ≤ c ∧ c ≤ '9') then c else '-')⟩

/-- A JSON schema fragment as the converters inspect it: the `$ref`,
`type`, `properties`, `items`, `enum` and `additionalProperties` keys.
`addProps = some none` models a truthy non-object `additionalProperties`
(e.g. `true`); `addProps = some (some s)` an object value. -/
inductive JSchema : Type where
  | mk (ref : Option String) (ty : Option String)
      (props : Option (List (String × JSchema)))
      (items : Option JSchema)
      (enm : Option (List String))
      (addProps : Option (Option JSchema)) : JSchema


def JSchema.ref : JSchema → Option String
  | .mk r _ _ _ _ _ => r

def JSchema.ty : JSchema → Option String
  | .mk _ t _ _ _ _ => t

def JSchema.props : JSchema → Option (List (String × JSchema))
  | .mk _ _ p _ _ _ => p

def JSchema.items : JSchema → Option JSchema
  | .mk _ _ _ i _ _ => i

def JSchema.enm : JSchema → Option (List String)
  | .mk _ _ _ _ e _ => e

def JSchema.addProps : JSchema → Option (Option JSchema)
  | .mk _ _ _ _ _ a => a

mutual

/-- All `$ref` strings occurring anywhere inside a schema fragment
(used only for the termination measure of the field projector). -/
def jrefs : JSchema → Finset String
  | .mk r _ p i _ ap =>
      (match r with | some s => {s} | none => ∅)
      ∪ (match p with | some l => jrefsL l | none => ∅)
      ∪ (match i with | some j => jrefs j | none => ∅)
      ∪ (match ap with | some (some j) => jrefs j | _ => ∅)

/-- All `$ref` strings inside a property map. -/
def jrefsL : List (String × JSchema) → Finset String
  | [] => ∅
  | (_, j) :: rest => jrefs j ∪ jrefsL rest

end

/-- The projected field-type values: primitive type names and sentinels
(strings), one-element array prototypes, and nested field maps. -/
inductive FVal : Type where
  | s (v : String) : FVal
  | arr (v : List FVal) : FVal
  | obj (v : List (String × FVal)) : FVal


/-- Normalised media type entry (types.ts `MediaType`): after
`normalizeContent` the schema slot holds either a resolved entity ID
(string) or a raw inline schema object.  The `examples` passthrough is
omitted. -/
structure MT : Type where
  schema : Option (String ⊕ JSchema)
  example? : Option String

/-- Normalised schema entity (types.ts `Schema`, produced by
`extractSchemas`).  `items` is either a resolved ID string (from
`normalizeItems` on a `$ref`) or the raw items fragment.  The
passthrough fields `format`, `maxItems`, `minItems`, `example` are
omitted. -/
structure NSchema : Type where
  id : String
  name : String
  ty : String
  required : Option (List String)
  props : Option (List (String × JSchema))
  items : Option (String ⊕ JSchema)
  enm : Option (List String)
  description : Option String

/-- Normalised parameter entity (types.ts `Parameter`); `style` and
`explode` passthroughs omitted. -/
structure NParameter : Type where
  id : String
  name : String
  inn : String
  description : Option String
  required : Option Bool
  schema : Option JSchema

/-- A response header as stored on a normalised response (`headers`
passthrough: only `description` and `schema` are ever read). -/
structure RawHeader : Type where
  description : Option String
  schema : Option JSchema

/-- Normalised response entity (types.ts `Response`). -/
structure NResponse : Type where
  id : String
  description : String
  headers : Option (List (String × RawHeader))
  content : Option (List (String × MT))

/-- Normalised request body entity (types.ts `RequestBody`; `content`
is required there). -/
structure NRequestBody : Type where
  id : String
  description : Option String
  content : List (String × MT)
  required : Option Bool

/-- Normalised security scheme (types.ts `SecurityScheme`); `flows`
passthrough omitted. -/
structure NSecurityScheme : Type where
  id : String
  ty : Option String
  name : String
  inn : Option String
  scheme : Option String
  bearerFormat : Option String
  openIdConnectUrl : Option String

/-- API licence metadata. -/
structure RawLicense : Type where
  name : String
  url : Option String

/-- A server entry (`servers[i]`). -/
structure RawServer : Type where
  url : String
  description : Option String

/-- Normalised metadata.  `extractMetadata` stores the title under
`name`; the field-view converter additionally probes `title` and
`servers`, which the normaliser never sets, so both are optional here. -/
structure APIMetadata : Type where
  name : Option String
  title : Option String
  version : String
  description : Option String
  baseUrl : Option String
  license : Option RawLicense
  tags : List String
  servers : Option (List RawServer)

/-- Normalised endpoint (types.ts `Endpoint`).  `responses` is the
`Record<string, string>` status-code-to-response-ID map; the `security`
passthrough is omitted. -/
structure Endpoint : Type where
  id : String
  path : String
  method : String
  operationId : Option String
  summary : Option String
  description : Option String
  tags : Option (List String)
  parameters : List String
  requestBody : Option String
  responses : List (String × String)

/-- The normalised document (types.ts `NormalizedAPI`). -/
structure NormalizedAPI : Type where
  id : String
  metadata : APIMetadata
  endpoints : List Endpoint
  schemas : List NSchema
  parameters : List NParameter
  responses : List NResponse
  requestBodies : List NRequestBody
  securitySchemes : Option (List NSecurityScheme)

/-- All `$ref` strings stored anywhere inside one normalised schema
entity (termination measure only). -/
def nrefs (s : NSchema) : Finset String :=
  (match s.props with | some l => jrefsL l | none => ∅)
  ∪ (match s.items with | some (.inr j) => jrefs j | _ => ∅)

/-- All `$ref` strings stored in the normalised schema collection
(termination measure only). -/
def allRefs : Option NormalizedAPI → Finset String
  | none => ∅
  | some n => n.schemas.foldr (fun s acc => nrefs s ∪ acc) ∅

/-- field-view-converter.ts L459-482, `resolveSchemaRef`: map any of the
three reference spellings to a `schema-*` ID and look it up; unknown IDs
yield `null`. -/
def resolveSchemaRef (ref : String) (normalized : Option NormalizedAPI) :
    Option NSchema :=
  match normalized with
  | none => none
  | some n =>
    let schemaId : String :=
      if jsStartsWith ref "#/components/schemas/" then
        "schema-" ++ jsToLower (replaceFirst ref "#/components/schemas/" "")
      else if jsStartsWith ref "schema-" then
        ref
      else
        "schema-" ++ jsToLower ref
    n.schemas.find? (fun s => s.id == schemaId)

/-- field-view-converter.ts L484-501, `resolveParameterRef`: map any
spelling of a parameter reference to a `param-*` ID (applying the
`generateId` sanitisation). -/
def resolveParameterRef (ref : String) : String :=
  if jsStartsWith ref "#/components/parameters/" then
    "param-" ++ sanitizeId (replaceFirst ref "#/components/parameters/" "")
  else if jsStartsWith ref "param-" then
    ref
  else
    "param-" ++ sanitizeId ref

/-- Result of `resolveSchema`: either a normalised schema entity or a
raw schema fragment (the input itself, or the `{ type: 'object' }`
fallback). -/
inductive RSchema : Type where
  | norm (s : NSchema) : RSchema
  | raw (j : JSchema) : RSchema

/-- field-view-converter.ts L67-86, `resolveSchema`. -/
def resolveSchema (schemaRef : String ⊕ JSchema) (n : NormalizedAPI) :
    RSchema :=
  match schemaRef with
  | .inr j =>
    if jsTruthyS j.ref then
      let refId := jsToLower (replaceFirst (j.ref.getD "")
        "#/components/schemas/" "schema-")
      match n.schemas.find? (fun s => s.id == refId) with
      | some s => .norm s
      | none => .raw j
    else
      .raw j
  | .inl str =>
    match n.schemas.find? (fun s => s.id == str) with
    | some s => .norm s
    | none => .raw (JSchema.mk none (some "object") none none none none)

/-- JavaScript `s || d` for a plain string (`x.type || 'any'` where `type` is a
string field). -/
def jsStrOr (s d : String) : String :=
  if s = "" then d else s

/-- JS truthiness of the normalised `items` slot: `undefined` is falsy,
an empty string ID is falsy, any object is truthy. -/
def itemsTruthy : Option (String ⊕ JSchema) → Bool
  | none => false
  | some (.inl s) => s ≠ ""
  | some (.inr _) => true

/-- The `.$ref` read on the normalised `items` slot (a string has no
such property). -/
def itemsRef : Option (String ⊕ JSchema) → Option String
  | some (.inr j) => j.ref
  | _ => none

/-- The `.properties` read on the normalised `items` slot. -/
def itemsProps : Option (String ⊕ JSchema) → Option (List (String × JSchema))
  | some (.inr j) => j.props
  | _ => none

/-- The `.type` read on the normalised `items` slot. -/
def itemsTy : Option (String ⊕ JSchema) → Option String
  | some (.inr j) => j.ty
  | _ => none

/-! ### Termination-measure lemmas for the field projector -/

theorem sizeOf_props_lt {fs : JSchema} {P : List (String × JSchema)}
    (h : fs.props = some P) : sizeOf P < sizeOf fs := by
  cases fs with
  | mk r t p i e a =>
    simp [JSchema.props] at h
    subst h
    simp
    omega

theorem sizeOf_items_lt {fs j : JSchema} (h : fs.items = some j) :
    sizeOf j < sizeOf fs := by
  cases fs with
  | mk r t p i e a =>
    simp [JSchema.items] at h
    subst h
    simp
    omega

theorem sizeOf_addProps_lt {fs j : JSchema} (h : fs.addProps = some (some j)) :
    sizeOf j < sizeOf fs := by
  cases fs with
  | mk r t p i e a =>
    simp [JSchema.addProps] at h
    subst h
    simp
    omega

theorem sizeOf_head_lt {name : String} {fs : JSchema}
    {rest : List (String × JSchema)} :
    sizeOf fs < sizeOf ((name, fs) :: rest) := by
  simp
  try omega

theorem sizeOf_tail_lt {name : String} {fs : JSchema}
    {rest : List (String × JSchema)} :
    sizeOf rest < sizeOf ((name, fs) :: rest) := by
  simp
  try omega

theorem jrefs_mk (r t : Option String) (p : Option (List (String × JSchema)))
    (i : Option JSchema) (e : Option (List String))
    (a : Option (Option JSchema)) :
    jrefs (JSchema.mk r t p i e a) =
      (match r with | some s => {s} | none => ∅)
      ∪ (match p with | some l => jrefsL l | none => ∅)
      ∪ (match i with | some j => jrefs j | none => ∅)
      ∪ (match a with | some (some j) => jrefs j | _ => ∅) := by
  rw [jrefs.eq_def]

theorem jrefsL_cons (name : String) (j : JSchema)
    (rest : List (String × JSchema)) :
    jrefsL ((name, j) :: rest) = jrefs j ∪ jrefsL rest := by
  rw [jrefsL.eq_def]

theorem jrefs_of_ref {fs : JSchema} {r : String} (h : fs.ref = some r) :
    r ∈ jrefs fs := by
  cases fs with
  | mk rr t p i e a =>
    simp [JSchema.ref] at h
    subst h
    simp [jrefs_mk]

theorem jrefsL_props_sub {fs : JSchema} {P : List (String × JSchema)}
    (h : fs.props = some P) : jrefsL P ⊆ jrefs fs := by
  cases fs with
  | mk r t p i e a =>
    simp [JSchema.props] at h
    subst h
    intro x hx
    simp [jrefs_mk]
    tauto

theorem jrefs_items_sub {fs j : JSchema} (h : fs.items = some j) :
    jrefs j ⊆ jrefs fs := by
  cases fs with
  | mk r t p i e a =>
    simp [JSchema.items] at h
    subst h
    intro x hx
    simp [jrefs_mk]
    tauto

theorem jrefs_addProps_sub {fs j : JSchema} (h : fs.addProps = some (some j)) :
    jrefs j ⊆ jrefs fs := by
  cases fs with
  | mk r t p i e a =>
    simp [JSchema.addProps] at h
    subst h
    intro x hx
    simp [jrefs_mk]
    tauto

theorem jrefsL_head_sub {name : String} {fs : JSchema}
    {rest : List (String × JSchema)} :
    jrefs fs ⊆ jrefsL ((name, fs) :: rest) := by
  intro x hx
  simp [jrefsL_cons]
  tauto

theorem jrefsL_tail_sub {name : String} {fs : JSchema}
    {rest : List (String × JSchema)} :
    jrefsL rest ⊆ jrefsL ((name, fs) :: rest) := by
  intro x hx
  simp [jrefsL_cons]
  tauto

theorem jrefsL_nrefs_sub {s : NSchema} {P : List (String × JSchema)}
    (h : s.props = some P) : jrefsL P ⊆ nrefs s := by
  intro x hx
  simp [nrefs, h]
  tauto

theorem jrefs_nrefs_items_sub {s : NSchema} {j : JSchema}
    (h : s.items = some (.inr j)) : jrefs j ⊆ nrefs s := by
  intro x hx
  simp [nrefs, h]
  tauto

theorem nrefs_sub_allRefs {n : NormalizedAPI} {s : NSchema}
    (h : s ∈ n.schemas) : nrefs s ⊆ allRefs (some n) := by
  simp only [allRefs]
  generalize n.schemas = l at h
  induction l with
  | nil => cases h
  | cons a l ih =>
    rcases List.mem_cons.mp h with h1 | h1
    · subst h1
      exact Finset.subset_union_left
    · exact (ih h1).trans Finset.subset_union_right

theorem resolveSchemaRef_mem {r : String} {n : Option NormalizedAPI}
    {s : NSchema} (h : resolveSchemaRef r n = some s) :
    ∃ n0, n = some n0 ∧ s ∈ n0.schemas := by
  cases n with
  | none => simp [resolveSchemaRef] at h
  | some n0 =>
    refine ⟨n0, rfl, ?_⟩
    exact List.mem_of_find?_eq_some h

theorem nrefs_props_sub_allRefs {r : String} {n : Option NormalizedAPI}
    {s : NSchema} {P : List (String × JSchema)}
    (h : resolveSchemaRef r n = some s) (hp : s.props = some P) :
    jrefsL P ⊆ allRefs n := by
  obtain ⟨n0, rfl, hm⟩ := resolveSchemaRef_mem h
  exact (jrefsL_nrefs_sub hp).trans (nrefs_sub_allRefs hm)

theorem nrefs_items_sub_allRefs {r : String} {n : Option NormalizedAPI}
    {s : NSchema} {j : JSchema}
    (h : resolveSchemaRef r n = some s) (hi : s.items = some (.inr j)) :
    jrefs j ⊆ allRefs n := by
  obtain ⟨n0, rfl, hm⟩ := resolveSchemaRef_mem h
  exact (jrefs_nrefs_items_sub hi).trans (nrefs_sub_allRefs hm)

/-- The strict decrease of the visited-set measure: descending through a
reference `r` not yet visited shrinks the set of reachable-but-unvisited
references, whatever sub-collection `U2` of references the recursive call
ranges over. -/
theorem card_measure_lt {U2 U : Finset String} {v v2 : Finset String}
    {r : String} (hU : U2 ⊆ U) (hv : insert r v ⊆ v2) (hrU : r ∈ U)
    (hrv : r ∉ v) : (U2 \ v2).card < (U \ v).card := by
  have h1 : U2 \ v2 ⊆ (U \ v).erase r := by
    intro x hx
    rcases Finset.mem_sdiff.mp hx with ⟨hxU, hxv⟩
    have hxr : x ≠ r := by
      rintro rfl
      exact hxv (hv (Finset.mem_insert_self _ v))
    refine Finset.mem_erase.mpr ⟨hxr, Finset.mem_sdiff.mpr ⟨hU hxU, ?_⟩⟩
    intro hxin
    exact hxv (hv (Finset.mem_insert_of_mem hxin))
  calc (U2 \ v2).card ≤ ((U \ v).erase r).card := Finset.card_le_card h1
    _ < (U \ v).card :=
        Finset.card_erase_lt_of_mem (Finset.mem_sdiff.mpr ⟨hrU, hrv⟩)

/-- Monotonicity of the visited-set measure under shrinking the
reference collection. -/
theorem card_measure_le {U2 U v : Finset String} (hU : U2 ⊆ U) :
    (U2 \ v).card ≤ (U \ v).card :=
  Finset.card_le_card (Finset.sdiff_subset_sdiff hU (Finset.Subset.refl v))

theorem lexLeft {a2 a b2 b : Nat} (h : a2 < a) :
    Prod.Lex (· < ·) (· < ·) (a2, b2) (a, b) := Prod.Lex.left _ _ h

theorem lexRight {a b2 b : Nat} (h : b2 < b) :
    Prod.Lex (α := Nat) (· < ·) (· < ·) (a, b2) (a, b) := Prod.Lex.right _ h

theorem lexLeLt {a2 a b2 b : Nat} (h1 : a2 ≤ a) (h2 : b2 < b) :
    Prod.Lex (· < ·) (· < ·) (a2, b2) (a, b) := by
  rcases lt_or_eq_of_le h1 with h | h
  · exact Prod.Lex.left _ _ h
  · subst h
    exact Prod.Lex.right _ h2

theorem of_ifTruthy {o : Option String} {r : String}
    (h : (if jsTruthyS o then o else none) = some r) : o = some r := by
  by_cases hc : jsTruthyS o <;> simp [hc] at h
  simp [h]

theorem of_ifProps {c : Prop} [Decidable c]
    {o : Option (List (String × JSchema))} {x : List (String × JSchema)}
    (h : (if c then o else none) = some x) : o = some x := by
  by_cases hc : c <;> simp [hc] at h
  exact h

theorem itemsProps_inv {o : Option (String ⊕ JSchema)}
    {P : List (String × JSchema)} (h : itemsProps o = some P) :
    ∃ j, o = some (Sum.inr j) ∧ j.props = some P := by
  match o with
  | none => simp [itemsProps] at h
  | some (.inl s) => simp [itemsProps] at h
  | some (.inr j) => exact ⟨j, rfl, h⟩

/-- field-view-converter.ts L305-457, `extractFields` (worker).  The
source iterates `Object.entries(properties)` and assigns one key of the
output object per property; here the accumulator `acc` carries the
object built so far.  Recursion terminates because every descent
through a `$ref` inserts that reference string into the visited set,
whose complement within the finite set of reference strings reachable
from the normalised store and the argument shrinks, while all other
recursion is structural. -/
def extractFieldsAux (n : Option NormalizedAPI) (v : Finset String)
    (acc : List (String × FVal)) :
    List (String × JSchema) → List (String × FVal)
  | [] => acc
  | (fieldName, fs) :: rest =>
    let val : FVal :=
      match h1 : (if jsTruthyS fs.ref then fs.ref else none) with
      | some r =>
        if hv : r ∈ v then .s "circular-ref"
        else
          match h2 : resolveSchemaRef r n with
          | some resolved =>
            match h3 : resolved.props with
            | some P => .obj (extractFieldsAux n (insert r v) [] P)
            | none =>
              if hb : resolved.ty = "array" ∧ itemsTruthy resolved.items then
                match h4 : (if jsTruthyS (itemsRef resolved.items) then
                    itemsRef resolved.items else none) with
                | some r2 =>
                  if hv2 : r2 ∈ insert r v then .arr [.s "circular-ref"]
                  else
                    match h5 : resolveSchemaRef r2 n with
                    | some ir =>
                      match h6 : ir.props with
                      | some P2 =>
                        .arr [.obj (extractFieldsAux n
                          (insert r2 (insert r v)) [] P2)]
                      | none => .arr [.s (jsStrOr ir.ty "any")]
                    | none => .arr [.s "any"]
                | none =>
                  match h4b : itemsProps resolved.items with
                  | some P3 =>
                    .arr [.obj (extractFieldsAux n (insert r v) [] P3)]
                  | none => .arr [.s (jsOrD (itemsTy resolved.items) "any")]
              else if resolved.enm.isSome then .s "string"
              else .s (jsStrOr resolved.ty "any")
          | none => .s "any"
      | none =>
        if hobj : fs.ty = some "object" then
          match hp : fs.props with
          | some P => .obj (extractFieldsAux n v [] P)
          | none =>
            match hap : fs.addProps with
            | some (some ap) =>
              match hap2 : (if ap.ty = some "object" then ap.props
                  else none) with
              | some P4 =>
                .obj [("[key: string]", .obj (extractFieldsAux n v [] P4))]
              | none =>
                if ap.ty = some "array" ∧ ap.items.isSome then
                  .obj [("[key: string]",
                    .arr [.s (jsOrD (ap.items.bind JSchema.ty) "any")])]
                else
                  .obj [("[key: string]", .s (jsOrD ap.ty "any"))]
            | some none => .obj [("[key: string]", .s "any")]
            | none => .s "object"
        else if harr : fs.ty = some "array" then
          match hit : fs.items with
          | some it =>
            match h7 : (if jsTruthyS it.ref then it.ref else none) with
            | some r3 =>
              if hv3 : r3 ∈ v then .arr [.s "circular-ref"]
              else
                match h8 : resolveSchemaRef r3 n with
                | some ir2 =>
                  match h9 : ir2.props with
                  | some P5 =>
                    .arr [.obj (extractFieldsAux n (insert r3 v) [] P5)]
                  | none => .arr [.s (jsStrOr ir2.ty "any")]
                | none => .arr [.s "any"]
            | none =>
              match h10 : it.props with
              | some P6 => .arr [.obj (extractFieldsAux n v [] P6)]
              | none =>
                if h2d : it.ty = some "array" then
                  match hit2 : it.items with
                  | some it2 =>
                    if it2.ty = some "array" then
                      match it2.items with
                      | some it3 => .arr [.arr [.arr [.s (jsOrD it3.ty "any")]]]
                      | none => .arr [.arr [.arr [.s "any"]]]
                    else
                      match h11 : (if it2.ty = some "object" then it2.props
                          else none) with
                      | some P7 =>
                        .arr [.arr [.obj (extractFieldsAux n v [] P7)]]
                      | none => .arr [.arr [.s (jsOrD it2.ty "any")]]
                  | none => .arr [.arr [.s "any"]]
                else
                  match h12 : (if it.ty = some "object" then it.props
                      else none) with
                  | some P8 => .arr [.obj (extractFieldsAux n v [] P8)]
                  | none => .arr [.s (jsOrD it.ty "any")]
          | none => .arr [.s "any"]
        else
          .s (jsOrD fs.ty "any")
    extractFieldsAux n v (jset acc fieldName val) rest
termination_by props => (((allRefs n ∪ jrefsL props) \ v).card, sizeOf props)
decreasing_by
  all_goals simp_wf
  · apply lexLeft
    have hr : j.ref = some r := by
      by_cases hc : jsTruthyS j.ref <;> simp [hc] at h1
      exact h1
    exact card_measure_lt
      (Finset.union_subset Finset.subset_union_left
        ((nrefs_props_sub_allRefs h2 h3).trans Finset.subset_union_left))
      (Finset.Subset.refl _)
      (Finset.mem_union_right _ (jrefsL_head_sub (jrefs_of_ref hr)))
      hv
  · apply lexLeft
    have hr : j.ref = some r := by
      by_cases hc : jsTruthyS j.ref <;> simp [hc] at h1
      exact h1
    exact card_measure_lt
      (Finset.union_subset Finset.subset_union_left
        ((nrefs_props_sub_allRefs h5 h6).trans Finset.subset_union_left))
      (Finset.subset_insert _ _)
      (Finset.mem_union_right _ (jrefsL_head_sub (jrefs_of_ref hr)))
      hv
  · apply lexLeft
    have hr : j.ref = some r := by
      by_cases hc : jsTruthyS j.ref <;> simp [hc] at h1
      exact h1
    obtain ⟨jj, hi, hjp⟩ := itemsProps_inv h4b
    exact card_measure_lt
      (Finset.union_subset Finset.subset_union_left
        (((jrefsL_props_sub hjp).trans
          (nrefs_items_sub_allRefs h2 hi)).trans Finset.subset_union_left))
      (Finset.Subset.refl _)
      (Finset.mem_union_right _ (jrefsL_head_sub (jrefs_of_ref hr)))
      hv
  · apply lexLeLt
      (card_measure_le (Finset.union_subset_union (Finset.Subset.refl _)
        ((jrefsL_props_sub hp).trans jrefsL_head_sub)))
    have := sizeOf_props_lt hp
    omega
  · have hap2b : ap.props = some P4 := by
      by_cases hc : ap.ty = some "object" <;> simp [hc] at hap2
      exact hap2
    apply lexLeLt
      (card_measure_le (Finset.union_subset_union (Finset.Subset.refl _)
        (((jrefsL_props_sub hap2b).trans (jrefs_addProps_sub hap)).trans
          jrefsL_head_sub)))
    have s1 := sizeOf_props_lt hap2b
    have s2 := sizeOf_addProps_lt hap
    omega
  · apply lexLeft
    have hr : it.ref = some r3 := by
      by_cases hc : jsTruthyS it.ref <;> simp [hc] at h7
      exact h7
    exact card_measure_lt
      (Finset.union_subset Finset.subset_union_left
        ((nrefs_props_sub_allRefs h8 h9).trans Finset.subset_union_left))
      (Finset.Subset.refl _)
      (Finset.mem_union_right _
        (jrefsL_head_sub ((jrefs_items_sub hit) (jrefs_of_ref hr))))
      hv3
  · apply lexLeLt
      (card_measure_le (Finset.union_subset_union (Finset.Subset.refl _)
        (((jrefsL_props_sub h10).trans (jrefs_items_sub hit)).trans
          jrefsL_head_sub)))
    have s1 := sizeOf_props_lt h10
    have s2 := sizeOf_items_lt hit
    omega
  · have h11b : it2.props = some P7 := by
      by_cases hc : it2.ty = some "object" <;> simp [hc] at h11
      exact h11
    apply lexLeLt
      (card_measure_le (Finset.union_subset_union (Finset.Subset.refl _)
        ((((jrefsL_props_sub h11b).trans (jrefs_items_sub hit2)).trans
          (jrefs_items_sub hit)).trans jrefsL_head_sub)))
    have s1 := sizeOf_props_lt h11b
    have s2 := sizeOf_items_lt hit2
    have s3 := sizeOf_items_lt hit
    omega
  · have h12b : it.props = some P8 := by
      by_cases hc : it.ty = some "object" <;> simp [hc] at h12
      exact h12
    apply lexLeLt
      (card_measure_le (Finset.union_subset_union (Finset.Subset.refl _)
        (((jrefsL_props_sub h12b).trans (jrefs_items_sub hit)).trans
          jrefsL_head_sub)))
    have s1 := sizeOf_props_lt h12b
    have s2 := sizeOf_items_lt hit
    omega
  · apply lexLeLt
      (card_measure_le (Finset.union_subset_union (Finset.Subset.refl _)
        jrefsL_tail_sub))
    omega

/-- field-view-converter.ts L305, `extractFields(properties, normalized?,
visitedRefs = new Set())`. -/
def extractFields (properties : List (String × JSchema))
    (normalized : Option NormalizedAPI) (visitedRefs : Finset String) :
    List (String × FVal) :=
  extractFieldsAux normalized visitedRefs [] properties


/-- The `.properties` read on a `resolveSchema` result. -/
def rsProps : RSchema → Option (List (String × JSchema))
  | .norm s => s.props
  | .raw j => j.props

/-- The `.type` read on a `resolveSchema` result (a normalised entity always
has a `type` string). -/
def rsTy : RSchema → Option String
  | .norm s => some s.ty
  | .raw j => j.ty

/-- The `.items` read on a `resolveSchema` result. -/
def rsItems : RSchema → Option (String ⊕ JSchema)
  | .norm s => s.items
  | .raw j => j.items.map Sum.inr

/-- JavaScript `x.type || 'any'` on a `resolveSchema` result. -/
def rsTyOrAny : RSchema → String
  | .norm s => jsStrOr s.ty "any"
  | .raw j => jsOrD j.ty "any"

/-- Parameter entry of the full field view (field-view-converter.ts
L120-127).  The `default` and `example` slots are untyped passthroughs
(`paramData.schema?.default`, `paramData.example`; the normaliser sets
neither a `default` model nor `example`), omitted here. -/
structure FVParam : Type where
  location : String
  ty : String
  required : Option Bool
  description : Option String

/-- Content-type entry of the full field view. -/
structure FVMedia : Type where
  schema : Option RSchema
  example? : Option String

/-- Request-body entry of the full field view. -/
structure FVBody : Type where
  required : Option Bool
  content_types : List (String × FVMedia)

/-- Response entry of the full field view. -/
structure FVResponse : Type where
  description : String
  headers : List (String × RawHeader)
  content_types : List (String × FVMedia)

/-- One operation of the full field view. -/
structure FVOperation : Type where
  operation_id : Option String
  summary : Option String
  description : Option String
  tags : Option (List String)
  parameters : List (String × FVParam)
  request_body : Option FVBody
  responses : List (String × FVResponse)

/-- The `api_info` of the full field view. -/
structure APIInfo : Type where
  title : String
  version : String
  description : Option String
  servers : Option (List RawServer)

/-- A schema entry of the full field view. -/
structure FVSchemaEntry : Type where
  ty : String
  props : Option (List (String × JSchema))
  required : Option (List String)
  description : Option String

/-- The full field view (field-view-converter.ts `FieldBasedView`). -/
structure FieldBasedView : Type where
  api_info : APIInfo
  paths : List (String × List (String × FVOperation))
  schemas : List (String × FVSchemaEntry)

/-- field-view-converter.ts L120-127: one parameter entry. -/
def fvParamOf (p : NParameter) : FVParam :=
  { location := p.inn
    ty := jsOrD (p.schema.bind JSchema.ty) "string"
    required := p.required
    description := p.description }

/-- field-view-converter.ts L106-192: the operation object built for
one endpoint by `convertToFieldView`.  A parameter ID that matches no
normalised parameter adds nothing (L118-119: `find` then `if
(paramData)` with no else branch). -/
def fvOperation (n : NormalizedAPI) (e : Endpoint) : FVOperation :=
  { operation_id := e.operationId
    summary := e.summary
    description := e.description
    tags := e.tags
    parameters := e.parameters.foldl (fun acc pid =>
      match n.parameters.find? (fun p => p.id == pid) with
      | some p => jset acc p.name (fvParamOf p)
      | none => acc) []
    request_body :=
      if jsTruthyS e.requestBody then
        match n.requestBodies.find? (fun b => some b.id == e.requestBody) with
        | some b => some
            { required := b.required
              content_types := b.content.foldl (fun acc ct =>
                jset acc ct.1
                  { schema := ct.2.schema.map (fun sr => resolveSchema sr n)
                    example? := ct.2.example? }) [] }
        | none => none
      else none
    responses := e.responses.foldl (fun acc ce =>
      match n.responses.find? (fun r => r.id == ce.2) with
      | some rd => jset acc ce.1
          { description := rd.description
            headers := (rd.headers.getD []).foldl
              (fun hacc he => jset hacc he.1 he.2) []
            content_types := (rd.content.getD []).foldl (fun cacc ct =>
              jset cacc ct.1
                { schema := ct.2.schema.map (fun sr => resolveSchema sr n)
                  example? := ct.2.example? }) [] }
      | none => acc) [] }

/-- field-view-converter.ts L88-207, `convertToFieldView`.  The
endpoint responses record is always an object here (types.ts
`Record<string, string>`), so the `Array.isArray(endpoint.responses)`
legacy branch (L153-159) is dead and not modelled. -/
def convertToFieldView (n : NormalizedAPI) : FieldBasedView :=
  { api_info :=
      { title := jsOrD (jsOrS n.metadata.name n.metadata.title) ""
        version := n.metadata.version
        description := n.metadata.description
        servers := n.metadata.servers }
    paths := n.endpoints.foldl (fun acc e =>
      let inner := (jget acc e.path).getD []
      jset acc e.path (jset inner (jsToLower e.method) (fvOperation n e))) []
    schemas := n.schemas.foldl (fun acc s =>
      jset acc (replaceFirst s.id "schema-" "")
        { ty := s.ty
          props := s.props
          required := s.required
          description := s.description }) [] }

/-- One endpoint entry of the simplified view. -/
structure SEntry : Type where
  summary : Option String
  parameters : List (String × String)
  request_fields : FVal
  response_fields : FVal

/-- The simplified view. -/
structure SimplifiedView : Type where
  api : String
  endpoints : List (String × SEntry)

/-- field-view-converter.ts L227-237: the simplified parameters map.
Each reference is first normalised by `resolveParameterRef`; a failed
lookup is silently skipped (L235 comment in the source). -/
def simplifiedParams (n : NormalizedAPI) (pids : List String) :
    List (String × String) :=
  pids.foldl (fun acc pid =>
    match n.parameters.find? (fun p => p.id == resolveParameterRef pid) with
    | some param =>
        jset acc param.name (jsOrD (param.schema.bind JSchema.ty) "string")
    | none => acc) []

/-- field-view-converter.ts L241-247: exact request-body lookup with
fallback to a partial ID match (substring `body` or the lowercased
method) or, failing that, the first request body of the collection. -/
def chooseRequestBody (n : NormalizedAPI) (method rbId : String) :
    Option NRequestBody :=
  match n.requestBodies.find? (fun b => b.id == rbId) with
  | some b => some b
  | none =>
    if n.requestBodies.length > 0 then
      match n.requestBodies.find? (fun b =>
          jsIncludes b.id "body" || jsIncludes b.id (jsToLower method)) with
      | some b => some b
      | none => n.requestBodies.head?
    else none

/-- field-view-converter.ts L240-258: `request_fields` of one
simplified endpoint entry (initialised to `{}` at L222). -/
def simplifiedRequestFields (n : NormalizedAPI) (method : String)
    (rbId : Option String) : FVal :=
  if jsTruthyS rbId then
    match chooseRequestBody n method (rbId.getD "") with
    | some body =>
      let sref := (jget body.content "application/json").bind MT.schema
      if itemsTruthy sref then
        match rsProps (resolveSchema (sref.getD (.inl "")) n) with
        | some P => .obj (extractFields P (some n) ∅)
        | none => .obj []
      else .obj []
    | none => .obj []
  else .obj []

/-- field-view-converter.ts L261-299: `response_fields` of one
simplified endpoint entry (initialised to `{}` at L223): project the
response whose status code is the first key equal to `200` or `201`. -/
def simplifiedResponseFields (n : NormalizedAPI)
    (responses : List (String × String)) : FVal :=
  match (responses.map Prod.fst).find? (fun c => c == "200" || c == "201") with
  | some successCode =>
    match (jget responses successCode).bind
        (fun rid => n.responses.find? (fun r => r.id == rid)) with
    | some response =>
      let sref := (response.content.bind
        (fun ct => jget ct "application/json")).bind MT.schema
      if itemsTruthy sref then
        let schema := resolveSchema (sref.getD (.inl "")) n
        match rsProps schema with
        | some P => .obj (extractFields P (some n) ∅)
        | none =>
          if rsTy schema = some "array" ∧ itemsTruthy (rsItems schema) then
            let itemSchema := resolveSchema ((rsItems schema).getD (.inl "")) n
            match rsProps itemSchema with
            | some PI => .arr [.obj (extractFields PI (some n) ∅)]
            | none => .arr [.s (rsTyOrAny itemSchema)]
          else .obj []
      else .obj []
    | none => .obj []
  | none => .obj []

/-- field-view-converter.ts L217-300: the entry built for one endpoint
by `createSimplifiedFieldView` (the L257 `console.log` side effect has
no observable output value). -/
def simplifiedEndpointEntry (n : NormalizedAPI) (e : Endpoint) : SEntry :=
  { summary := e.summary
    parameters := simplifiedParams n e.parameters
    request_fields := simplifiedRequestFields n e.method e.requestBody
    response_fields := simplifiedResponseFields n e.responses }

/-- field-view-converter.ts L210-303, `createSimplifiedFieldView`. -/
def createSimplifiedFieldView (n : NormalizedAPI) : SimplifiedView :=
  { api := jsOrD (jsOrS n.metadata.name n.metadata.title) "API"
      ++ " v" ++ n.metadata.version
    endpoints := n.endpoints.foldl (fun acc e =>
      jset acc (e.method ++ " " ++ e.path) (simplifiedEndpointEntry n e)) [] }

/-! ### Raw document model (the parsed Swagger/OpenAPI tree, as read by
swagger-to-json.ts) -/

/-- An inline parameter definition.  `name`/`in` are modelled as plain
strings where the empty string stands for an absent field (both are only
used in string templates and `||` chains, where `''` and `undefined`
behave alike for the modelled observations).  `ty` is the Swagger-2.0
`type` key directly on the parameter, read when the parameter object
itself serves as its schema (`param.schema || param`). -/
structure ParamDef : Type where
  name : String
  inn : String
  description : Option String
  required : Option Bool
  schema : Option JSchema
  ty : Option String

/-- JavaScript `param.schema || param`: of the parameter-as-schema object only its
`type` is ever read downstream. -/
def paramSchemaOf (p : ParamDef) : JSchema :=
  p.schema.getD (JSchema.mk none p.ty none none none none)

/-- A parameter as it appears in a parameter list: a `$ref` marker (with
a truthy reference string) or an inline definition. -/
inductive RawParam : Type where
  | byRef (r : String) : RawParam
  | inline (p : ParamDef) : RawParam

/-- A media-type object of a raw `content` map. -/
structure RawMediaType : Type where
  schema : Option JSchema
  example? : Option String

/-- Argument of `normalizeContent`: either a Swagger-2.0 style schema
with a truthy `type` (the L440 `content.type` test) or an OpenAPI 3
media-type map. -/
inductive RawContent : Type where
  | sw2 (j : JSchema) : RawContent
  | oa3 (m : List (String × RawMediaType)) : RawContent

/-- An inline request body definition. -/
structure BodyDef : Type where
  description : Option String
  content : RawContent
  required : Option Bool

/-- A request body: `$ref` marker (truthy) or inline definition. -/
inductive RawRequestBody : Type where
  | byRef (r : String) : RawRequestBody
  | inline (b : BodyDef) : RawRequestBody

/-- An inline response definition.  `schema2` is the Swagger-2.0
`response.schema` (used via `response.content || response.schema`). -/
structure RespDef : Type where
  description : Option String
  headers : Option (List (String × RawHeader))
  content : Option RawContent
  schema2 : Option JSchema

/-- A response: `$ref` marker (truthy) or inline definition. -/
inductive RawResponse : Type where
  | byRef (r : String) : RawResponse
  | inline (d : RespDef) : RawResponse

/-- A raw operation object (the `security` passthrough is omitted). -/
structure RawOperation : Type where
  operationId : Option String
  summary : Option String
  description : Option String
  tags : Option (List String)
  parameters : Option (List RawParam)
  requestBody : Option RawRequestBody
  responses : Option (List (String × RawResponse))

/-- A raw path item. -/
structure PathItem : Type where
  parameters : Option (List RawParam)
  get : Option RawOperation
  post : Option RawOperation
  put : Option RawOperation
  delete : Option RawOperation
  patch : Option RawOperation
  options : Option RawOperation
  head : Option RawOperation

/-- The read `pathItem[method]` for the method strings the converter walks. -/
def PathItem.op (pi : PathItem) : String → Option RawOperation
  | "get" => pi.get
  | "post" => pi.post
  | "put" => pi.put
  | "delete" => pi.delete
  | "patch" => pi.patch
  | "options" => pi.options
  | "head" => pi.head
  | _ => none

/-- The operations of a path item in field order (for `getAllTags`,
which walks `Object.values(pathItem)`; the `parameters` array carries no
`tags` key and contributes nothing there). -/
def PathItem.ops (pi : PathItem) : List RawOperation :=
  [pi.get, pi.post, pi.put, pi.delete, pi.patch, pi.options,
    pi.head].filterMap id

/-- A raw schema definition under `components.schemas`/`definitions`
(passthrough fields `format`, `maxItems`, `minItems`, `example`
omitted). -/
structure RawSchemaDef : Type where
  ty : Option String
  required : Option (List String)
  properties : Option (List (String × JSchema))
  items : Option JSchema
  enm : Option (List String)
  description : Option String

/-- A raw security scheme definition (`flows` passthrough omitted). -/
structure SecDef : Type where
  ty : Option String
  name : Option String
  inn : Option String
  scheme : Option String
  bearerFormat : Option String
  openIdConnectUrl : Option String

/-- The raw `info` object. -/
structure RawInfo : Type where
  title : String
  version : String
  description : Option String
  license : Option RawLicense

/-- The raw `components` section. -/
structure Components : Type where
  schemas : Option (List (String × RawSchemaDef))
  parameters : Option (List (String × ParamDef))
  responses : Option (List (String × RespDef))
  requestBodies : Option (List (String × BodyDef))
  securitySchemes : Option (List (String × SecDef))

/-- The parsed document (types.ts `SwaggerSpec`).  `info` is optional
because a syntactically valid document need not contain it (the TS
declaration notwithstanding): `normalizeSwagger` then crashes on
`spec.info.title`.  `parameters2`/`responses2` are the Swagger-2.0
top-level `parameters`/`responses` sections. -/
structure SpecDoc : Type where
  openapi : Option String
  swagger : Option String
  info : Option RawInfo
  servers : Option (List RawServer)
  host : Option String
  basePath : Option String
  schemes : Option (List String)
  paths : Option (List (String × PathItem))
  components : Option Components
  definitions : Option (List (String × RawSchemaDef))
  parameters2 : Option (List (String × ParamDef))
  responses2 : Option (List (String × RespDef))
  securityDefinitions : Option (List (String × SecDef))

/-! ### SwaggerToJSONConverter (swagger-to-json.ts) -/

/-- The converter instance state: per-kind anonymous-ID counters and the
two reference maps, reset at the start of each conversion. -/
structure CState : Type where
  idCounters : List (String × Nat)
  schemaRefs : List (String × String)
  componentRefs : List (String × String)

def CState.empty : CState := ⟨[], [], []⟩

/-- swagger-to-json.ts L495-509, `generateId`.  For a truthy name the
ID is `kind-<sanitised name>` and the counters are untouched (the L500
zero-initialisation is observationally void); otherwise a per-kind
counter is bumped. -/
def generateId (ty : String) (name : Option String) (st : CState) :
    String × CState :=
  if jsTruthyS name then
    (ty ++ "-" ++ sanitizeId (name.getD ""), st)
  else
    let c := ((jget st.idCounters ty).getD 0) + 1
    (ty ++ "-" ++ toString c,
      { st with idCounters := jset st.idCounters ty c })

/-- swagger-to-json.ts L215-223, `getSchemaMap`: `components.schemas`
if present (even empty), else `definitions`, else empty. -/
def getSchemaMap (spec : SpecDoc) : List (String × RawSchemaDef) :=
  match spec.components.bind Components.schemas with
  | some m => m
  | none => spec.definitions.getD []

/-- swagger-to-json.ts L465-474, `buildReferenceMap`: pre-register the
schema names only, under their bare name and both JSON-pointer
spellings. -/
def buildReferenceMap (spec : SpecDoc) (st : CState) : CState :=
  (getSchemaMap spec).foldl (fun st2 nm =>
    let (schemaId, st3) := generateId "schema" (some nm.1) st2
    { st3 with
      schemaRefs := jset st3.schemaRefs nm.1 schemaId
      componentRefs := jset (jset st3.componentRefs
        ("#/components/schemas/" ++ nm.1) schemaId)
        ("#/definitions/" ++ nm.1) schemaId }) st

/-- swagger-to-json.ts L476-493, `resolveRef`: registered match first,
then a schema-name match on the trailing path segment, else the ref
unchanged. -/
def resolveRef (st : CState) (ref : String) : String :=
  match jget st.componentRefs ref with
  | some id => id
  | none =>
    let schemaName := lastSegment ref
    if schemaName ≠ "" then
      match jget st.schemaRefs schemaName with
      | some id => id
      | none => ref
    else ref

/-- swagger-to-json.ts L225-239, `normalizeProperties`: rewrite each
property-level truthy `$ref` to a fresh `{ $ref: resolvedId }` marker,
keep everything else as-is. -/
def normalizeProperties (st : CState)
    (properties : Option (List (String × JSchema))) :
    Option (List (String × JSchema)) :=
  match properties with
  | none => none
  | some props => some (props.foldl (fun acc kv =>
      if jsTruthyS kv.2.ref then
        jset acc kv.1 (JSchema.mk (some (resolveRef st (kv.2.ref.getD "")))
          none none none none none)
      else jset acc kv.1 kv.2) [])

/-- swagger-to-json.ts L241-249, `normalizeItems`: a truthy `$ref`
becomes the resolved ID string, anything else is kept. -/
def normalizeItems (st : CState) (items : Option JSchema) :
    Option (String ⊕ JSchema) :=
  match items with
  | none => none
  | some it =>
    if jsTruthyS it.ref then some (.inl (resolveRef st (it.ref.getD "")))
    else some (.inr it)

/-- swagger-to-json.ts L450-460: the OpenAPI 3 media-type map branch of
`normalizeContent`. -/
def normalizeMediaTypes (st : CState) (m : List (String × RawMediaType)) :
    List (String × MT) :=
  m.foldl (fun acc kv =>
    jset acc kv.1
      { schema := match kv.2.schema with
          | some js =>
            if jsTruthyS js.ref then
              some (.inl (resolveRef st (js.ref.getD "")))
            else some (.inr js)
          | none => none
        example? := kv.2.example? }) []

/-- swagger-to-json.ts L437-463, `normalizeContent`. -/
def normalizeContent (st : CState) (content : Option RawContent) :
    Option (List (String × MT)) :=
  match content with
  | none => none
  | some (.sw2 j) => some [("application/json", ⟨some (.inr j), none⟩)]
  | some (.oa3 m) => some (normalizeMediaTypes st m)

/-- swagger-to-json.ts L79-89, `getBaseUrl`. -/
def getBaseUrl (spec : SpecDoc) : Option String :=
  match spec.servers with
  | some (sv :: _) => some sv.url
  | _ =>
    if jsTruthyS spec.host then
      some ((jsOrD (spec.schemes.bind List.head?) "https") ++ "://"
        ++ spec.host.getD "" ++ spec.basePath.getD "")
    else none

/-- swagger-to-json.ts L91-103, `getAllTags`: every operation tag,
deduplicated in first-seen order (the JS `Set`). -/
def getAllTags (spec : SpecDoc) : List String :=
  (spec.paths.getD []).foldl (fun acc pv =>
    pv.2.ops.foldl (fun acc2 op =>
      (op.tags.getD []).foldl
        (fun a t => if t ∈ a then a else a ++ [t]) acc2) acc) []

/-- swagger-to-json.ts L65-77, `extractMetadata` (its object literal has
no `title`/`servers` keys). -/
def extractMetadata (info : RawInfo) (spec : SpecDoc) : APIMetadata :=
  { name := some info.title
    title := none
    version := info.version
    description := info.description
    baseUrl := getBaseUrl spec
    license := info.license
    tags := getAllTags spec
    servers := none }

/-- swagger-to-json.ts L141-156, `extractOperationParameters`:
path-level parameters first, then operation-level; `$ref` parameters go
through `resolveRef`, inline ones get a name-derived ID. -/
def extractOperationParameters (st : CState) (operation : RawOperation)
    (pathParameters : Option (List RawParam)) : List String × CState :=
  ((pathParameters.getD []) ++ (operation.parameters.getD [])).foldl
    (fun (acc : List String × CState) param =>
      match param with
      | .byRef r =>
        let refId := resolveRef acc.2 r
        (if refId ≠ "" then acc.1 ++ [refId] else acc.1, acc.2)
      | .inline p =>
        let (pid, st2) := generateId "param" (some p.name) acc.2
        (acc.1 ++ [pid], st2)) ([], st)

/-- swagger-to-json.ts L158-167, `extractOperationRequestBody`. -/
def extractOperationRequestBody (st : CState) (operation : RawOperation) :
    Option String × CState :=
  match operation.requestBody with
  | none => (none, st)
  | some (.byRef r) => (some (resolveRef st r), st)
  | some (.inline _) =>
    let (bid, st2) := generateId "request-body"
      (jsOrS operation.operationId (some "body")) st
    (some bid, st2)

/-- swagger-to-json.ts L169-185, `extractOperationResponses`. -/
def extractOperationResponses (st : CState) (operation : RawOperation) :
    List (String × String) × CState :=
  (operation.responses.getD []).foldl
    (fun (acc : List (String × String) × CState) cv =>
      match cv.2 with
      | .byRef r => (jset acc.1 cv.1 (resolveRef acc.2 r), acc.2)
      | .inline _ =>
        let (rid, st2) := generateId "response"
          (some ((jsOrD operation.operationId "op") ++ "-" ++ cv.1)) acc.2
        (jset acc.1 cv.1 rid, st2)) ([], st)

/-- The method walk order of `extractEndpoints` (L109). -/
def methodsAll : List String :=
  ["get", "post", "put", "delete", "patch", "options", "head"]

/-- The method walk order of the parameter/response/body extractors
(L279, L332, L377 uses a further subset). -/
def methodsFive : List String := ["get", "post", "put", "delete", "patch"]

/-- swagger-to-json.ts L105-139, `extractEndpoints`. -/
def extractEndpoints (spec : SpecDoc) (st : CState) :
    List Endpoint × CState :=
  (spec.paths.getD []).foldl (fun acc pv =>
    methodsAll.foldl (fun (acc2 : List Endpoint × CState) method =>
      match pv.2.op method with
      | some operation =>
        let (eid, st1) := generateId "endpoint"
          (jsOrS operation.operationId (some (method ++ "-" ++ pv.1))) acc2.2
        let (pids, st2) :=
          extractOperationParameters st1 operation pv.2.parameters
        let (rb, st3) := extractOperationRequestBody st2 operation
        let (resps, st4) := extractOperationResponses st3 operation
        (acc2.1 ++
          [{ id := eid
             path := pv.1
             method := jsToUpper method
             operationId := operation.operationId
             summary := operation.summary
             description := operation.description
             tags := operation.tags
             parameters := pids
             requestBody := rb
             responses := resps }], st4)
      | none => acc2) acc) ([], st)

/-- swagger-to-json.ts L187-213, `extractSchemas`. -/
def extractSchemas (spec : SpecDoc) (st : CState) :
    List NSchema × CState :=
  (getSchemaMap spec).foldl (fun (acc : List NSchema × CState) nv =>
    let (sid, st1) := generateId "schema" (some nv.1) acc.2
    (acc.1 ++
      [{ id := sid
         name := nv.1
         ty := jsOrD nv.2.ty "object"
         required := nv.2.required
         props := normalizeProperties st1 nv.2.properties
         items := normalizeItems st1 nv.2.items
         enm := nv.2.enm
         description := nv.2.description }],
      { st1 with schemaRefs := jset st1.schemaRefs nv.1 sid })) ([], st)

/-- The parameter entity built from an inline definition
(swagger-to-json.ts L265-272, L288-296). -/
def paramEntity (pid : String) (p : ParamDef) : NParameter :=
  { id := pid
    name := p.name
    inn := p.inn
    description := p.description
    required := p.required
    schema := some (paramSchemaOf p) }

/-- swagger-to-json.ts L251-324, `extractParameters`: inline path-level
and operation-level parameters (deduplicated by `name-in`), then the
shared component parameters (registering their component refs). -/
def extractParameters (spec : SpecDoc) (st : CState) :
    List NParameter × CState :=
  let step := fun (acc : List NParameter × List String × CState)
      (param : RawParam) =>
    match param with
    | .byRef _ => acc
    | .inline p =>
      let key := p.name ++ "-" ++ p.inn
      if key ∈ acc.2.1 then acc
      else
        let (pid, st2) := generateId "param" (some p.name) acc.2.2
        (acc.1 ++ [paramEntity pid p], acc.2.1 ++ [key], st2)
  let fromPaths := (spec.paths.getD []).foldl (fun acc pv =>
    let acc1 := (pv.2.parameters.getD []).foldl step acc
    methodsFive.foldl (fun acc2 method =>
      match pv.2.op method with
      | some operation => (operation.parameters.getD []).foldl step acc2
      | none => acc2) acc1) ([], [], st)
  let componentParams := match spec.components.bind Components.parameters with
    | some m => m
    | none => spec.parameters2.getD []
  let final := componentParams.foldl
    (fun (acc : List NParameter × List String × CState) nv =>
      let key := (jsStrOr nv.2.name nv.1) ++ "-" ++ nv.2.inn
      if key ∈ acc.2.1 then acc
      else
        let (pid, st2) := generateId "param" (some nv.1) acc.2.2
        let st3 : CState := { st2 with
          componentRefs := jset st2.componentRefs ("#/components/parameters/" ++ nv.1) pid }
        (acc.1 ++
          [{ id := pid
             name := jsStrOr nv.2.name nv.1
             inn := nv.2.inn
             description := nv.2.description
             required := nv.2.required
             schema := some (paramSchemaOf nv.2) }],
          acc.2.1 ++ [key], st3)) fromPaths
  (final.1, final.2.2)

/-- swagger-to-json.ts L326-369, `extractResponses`: inline operation
responses (deduplicated by `opId-code`), then component responses
(registering their component refs). -/
def extractResponses (spec : SpecDoc) (st : CState) :
    List NResponse × CState :=
  let fromOps := (spec.paths.getD []).foldl (fun acc pv =>
    methodsFive.foldl
      (fun (acc2 : List NResponse × List String × CState) method =>
        match pv.2.op method with
        | some operation =>
          (operation.responses.getD []).foldl (fun acc3 cv =>
            match cv.2 with
            | .byRef _ => acc3
            | .inline d =>
              let key := (jsOrD operation.operationId method) ++ "-" ++ cv.1
              if key ∈ acc3.2.1 then acc3
              else
                let (rid, st2) := generateId "response" (some key) acc3.2.2
                (acc3.1 ++
                  [{ id := rid
                     description := jsOrD d.description "Response"
                     headers := d.headers
                     content := some ((normalizeContent st2
                       (d.content.orElse
                         (fun _ => d.schema2.map .sw2))).getD []) }],
                  acc3.2.1 ++ [key], st2)) acc2
        | none => acc2) acc) ([], [], st)
  let componentResponses := match spec.components.bind Components.responses with
    | some m => m
    | none => spec.responses2.getD []
  let final := componentResponses.foldl
    (fun (acc : List NResponse × List String × CState) nv =>
      let (rid, st2) := generateId "response" (some nv.1) acc.2.2
      let st3 : CState := { st2 with
        componentRefs := jset st2.componentRefs ("#/components/responses/" ++ nv.1) rid }
      (acc.1 ++
        [{ id := rid
           description := jsOrD nv.2.description "Response"
           headers := nv.2.headers
           content := normalizeContent st2
             (nv.2.content.orElse (fun _ => nv.2.schema2.map .sw2)) }],
        acc.2.1, st3)) fromOps
  (final.1, final.2.2)

/-- swagger-to-json.ts L371-410, `extractRequestBodies`: inline bodies
of `post`/`put`/`patch` operations (deduplicated by operation key),
then component request bodies (registering their component refs). -/
def extractRequestBodies (spec : SpecDoc) (st : CState) :
    List NRequestBody × CState :=
  let fromOps := (spec.paths.getD []).foldl (fun acc pv =>
    ["post", "put", "patch"].foldl
      (fun (acc2 : List NRequestBody × List String × CState) method =>
        match pv.2.op method with
        | some operation =>
          match operation.requestBody with
          | some (.inline b) =>
            let key := jsOrD operation.operationId (method ++ "-body")
            if key ∈ acc2.2.1 then acc2
            else
              let (bid, st2) := generateId "request-body" (some key) acc2.2.2
              (acc2.1 ++
                [{ id := bid
                   description := b.description
                   content := (normalizeContent st2 (some b.content)).getD []
                   required := b.required }],
                acc2.2.1 ++ [key], st2)
          | _ => acc2
        | none => acc2) acc) ([], [], st)
  let componentBodies :=
    (spec.components.bind Components.requestBodies).getD []
  let final := componentBodies.foldl
    (fun (acc : List NRequestBody × List String × CState) nv =>
      let (bid, st2) := generateId "request-body" (some nv.1) acc.2.2
      let st3 : CState := { st2 with
        componentRefs := jset st2.componentRefs ("#/components/requestBodies/" ++ nv.1) bid }
      (acc.1 ++
        [{ id := bid
           description := nv.2.description
           content := (normalizeContent st2 (some nv.2.content)).getD []
           required := nv.2.required }],
        acc.2.1, st3)) fromOps
  (final.1, final.2.2)

/-- swagger-to-json.ts L412-435, `extractSecuritySchemes`. -/
def extractSecuritySchemes (spec : SpecDoc) (st : CState) :
    Option (List NSecurityScheme) × CState :=
  let securityDefs :=
    match spec.components.bind Components.securitySchemes with
    | some m => m
    | none => spec.securityDefinitions.getD []
  if securityDefs.isEmpty then (none, st)
  else
    let final := securityDefs.foldl
      (fun (acc : List NSecurityScheme × CState) nv =>
        let (sid, st2) := generateId "security" (some nv.1) acc.2
        (acc.1 ++
          [{ id := sid
             ty := nv.2.ty
             name := jsOrD nv.2.name nv.1
             inn := nv.2.inn
             scheme := nv.2.scheme
             bearerFormat := nv.2.bearerFormat
             openIdConnectUrl := nv.2.openIdConnectUrl }], st2)) ([], st)
    (some final.1, final.2)

/-- swagger-to-json.ts L517-529, `collectWarnings`. -/
def collectWarnings (spec : SpecDoc) : List String :=
  (if ¬ (jsTruthyS spec.openapi ∨ jsTruthyS spec.swagger) then
    ["No OpenAPI or Swagger version specified"] else [])
  ++ (match spec.paths with
    | none => ["No paths defined in the specification"]
    | some [] => ["No paths defined in the specification"]
    | some (_ :: _) => [])

/-- swagger-to-json.ts L47-63, `normalizeSwagger`: reset the instance
state, pre-register the schema names, then extract every collection in
the order of the returned object literal.  Accessing `spec.info.title`
(L51) with `info` missing raises a TypeError whose message is returned
through `convert`; this is the only failure the typed raw model can
reach. -/
def normalizeSwagger (spec : SpecDoc) : Except String NormalizedAPI :=
  let st1 := buildReferenceMap spec CState.empty
  match spec.info with
  | none => .error "Cannot read properties of undefined"
  | some info =>
    let (apiId, st2) := generateId "api" (some info.title) st1
    let (endpoints, st3) := extractEndpoints spec st2
    let (schemas, st4) := extractSchemas spec st3
    let (params, st5) := extractParameters spec st4
    let (responses, st6) := extractResponses spec st5
    let (bodies, st7) := extractRequestBodies spec st6
    let (sec, _) := extractSecuritySchemes spec st7
    .ok
      { id := apiId
        metadata := extractMetadata info spec
        endpoints := endpoints
        schemas := schemas
        parameters := params
        responses := responses
        requestBodies := bodies
        securitySchemes := sec }

/-- Result of `convert` (types.ts `ConversionResult`). -/
structure ConversionResult : Type where
  success : Bool
  data : Option NormalizedAPI
  error : Option String
  warnings : Option (List String)

/-- swagger-to-json.ts L19-45, `convert`.  `parseSwagger` (L37-45) calls
the external `JSON.parse` and `YAML.parse`; its outcome — the parsed
document, or the message of the error thrown when both parsers fail —
is the argument here.  The `try/catch` also captures the TypeError that
`normalizeSwagger` raises on a document without `info`. -/
def convert (parsed : Except String SpecDoc) : ConversionResult :=
  match parsed with
  | .error msg =>
    { success := false, data := none, error := some msg, warnings := none }
  | .ok spec =>
    match normalizeSwagger spec with
    | .ok normalized =>
      { success := true, data := some normalized, error := none,
        warnings := some (collectWarnings spec) }
    | .error msg =>
      { success := false, data := none, error := some msg, warnings := none }

/-! ### Concrete documents used by the claims -/

/-- A trivial metadata value (default for projections of absent data). -/
def emptyMetadata : APIMetadata := ⟨none, none, "", none, none, none, [], none⟩

/-- A trivial normalised document. -/
def emptyNormalizedAPI : NormalizedAPI :=
  ⟨"", emptyMetadata, [], [], [], [], [], none⟩

/-- Shorthand for an inline primitive schema fragment. -/
def primS (t : String) : JSchema := JSchema.mk none (some t) none none none none

/-- Shorthand for a `$ref` schema fragment. -/
def refS (r : String) : JSchema := JSchema.mk (some r) none none none none none

/-- The cyclic `Category` schema of the spec's cycle-termination
property: `parent: $ref Category`, `children: array of $ref Category`. -/
def categorySchema : RawSchemaDef :=
  { ty := some "object"
    required := none
    properties := some
      [("parent", refS "#/components/schemas/Category"),
       ("children", JSchema.mk none (some "array") none
         (some (refS "#/components/schemas/Category")) none none)]
    items := none
    enm := none
    description := none }

/-- A document whose schema collection is the single cyclic `Category`. -/
def categoryDoc : SpecDoc :=
  { openapi := some "3.0.0", swagger := none
    info := some ⟨"Category API", "1.0.0", none, none⟩
    servers := none, host := none, basePath := none, schemes := none
    paths := none
    components := some ⟨some [("Category", categorySchema)], none, none,
      none, none⟩
    definitions := none, parameters2 := none, responses2 := none
    securityDefinitions := none }

/-- The normalised `Category` store, as the converter produces it. -/
def categoryN : NormalizedAPI :=
  ((convert (.ok categoryDoc)).data).getD emptyNormalizedAPI

/-- The normalised `Category` property map (the argument
`createSimplifiedFieldView` would hand to `extractFields`). -/
def categoryProps : List (String × JSchema) :=
  ((categoryN.schemas.find? (fun s => s.id == "schema-category")).bind
    NSchema.props).getD []

/-- The empty parsed document (`JSON.parse` accepts the text `{}` and
yields an object with every modelled section absent). -/
def emptyDoc : SpecDoc :=
  ⟨none, none, none, none, none, none, none, none, none, none, none, none,
    none⟩

/-- The `Pet` schema of the round-trip scenario. -/
def petSchema : RawSchemaDef :=
  { ty := some "object"
    required := none
    properties := some [("id", primS "integer"), ("name", primS "string")]
    items := none
    enm := none
    description := none }

/-- Operation `GET /pets` returning an array of `Pet`. -/
def petsOperation : RawOperation :=
  { operationId := some "listPets", summary := some "List pets"
    description := none, tags := none, parameters := none
    requestBody := none
    responses := some [("200", .inline
      { description := some "A list of pets"
        headers := none
        content := some (.oa3 [("application/json",
          { schema := some (JSchema.mk none (some "array") none
              (some (refS "#/components/schemas/Pet")) none none)
            example? := none })])
        schema2 := none })] }

/-- The round-trip scenario document. -/
def petDoc : SpecDoc :=
  { openapi := some "3.0.0", swagger := none
    info := some ⟨"Pet API", "1.0.0", none, none⟩
    servers := none, host := none, basePath := none, schemes := none
    paths := some [("/pets", ⟨none, some petsOperation, none, none, none,
      none, none, none⟩)]
    components := some ⟨some [("Pet", petSchema)], none, none, none, none⟩
    definitions := none, parameters2 := none, responses2 := none
    securityDefinitions := none }

/-- The normalised round-trip scenario store. -/
def petN : NormalizedAPI :=
  ((convert (.ok petDoc)).data).getD emptyNormalizedAPI

/-- Operation `GET /items` with a dangling parameter `$ref` next to one valid
inline parameter (the missing-reference scenario). -/
def c5Operation : RawOperation :=
  { operationId := some "listItems", summary := none, description := none
    tags := none
    parameters := some [.byRef "#/components/parameters/DoesNotExist",
      .inline ⟨"limit", "query", none, none, some (primS "integer"), none⟩]
    requestBody := none
    responses := none }

/-- The missing-reference scenario document. -/
def c5Doc : SpecDoc :=
  { openapi := some "3.0.0", swagger := none
    info := some ⟨"C5 API", "1.0.0", none, none⟩
    servers := none, host := none, basePath := none, schemes := none
    paths := some [("/items", ⟨none, some c5Operation, none, none, none,
      none, none, none⟩)]
    components := none
    definitions := none, parameters2 := none, responses2 := none
    securityDefinitions := none }

/-- The normalised missing-reference scenario store. -/
def c5N : NormalizedAPI :=
  ((convert (.ok c5Doc)).data).getD emptyNormalizedAPI

/-- Operation `GET /stuff` whose only response is `202` carrying a JSON object
schema. -/
def c6Operation : RawOperation :=
  { operationId := some "getStuff", summary := none, description := none
    tags := none, parameters := none, requestBody := none
    responses := some [("202", .inline
      { description := some "Accepted"
        headers := none
        content := some (.oa3 [("application/json",
          { schema := some (JSchema.mk none (some "object")
              (some [("ok", primS "string")]) none none none)
            example? := none })])
        schema2 := none })] }

/-- A document whose success response is `202` (2xx but neither 200 nor
201). -/
def c6Doc : SpecDoc :=
  { openapi := some "3.0.0", swagger := none
    info := some ⟨"C6 API", "1.0.0", none, none⟩
    servers := none, host := none, basePath := none, schemes := none
    paths := some [("/stuff", ⟨none, some c6Operation, none, none, none,
      none, none, none⟩)]
    components := none
    definitions := none, parameters2 := none, responses2 := none
    securityDefinitions := none }

/-- The normalised `202` store. -/
def c6N : NormalizedAPI :=
  ((convert (.ok c6Doc)).data).getD emptyNormalizedAPI

/-- A document defining both a schema named `X` and a parameter named
`X`, with an endpoint referencing the parameter `X`. -/
def c7Doc : SpecDoc :=
  { openapi := some "3.0.0", swagger := none
    info := some ⟨"C7 API", "1.0.0", none, none⟩
    servers := none, host := none, basePath := none, schemes := none
    paths := some [("/x", ⟨none, some
      { operationId := some "getX", summary := none, description := none
        tags := none
        parameters := some [.byRef "#/components/parameters/X"]
        requestBody := none, responses := none },
      none, none, none, none, none, none⟩)]
    components := some
      ⟨some [("X", ⟨some "object", none, some [("a", primS "string")],
          none, none, none⟩)],
        some [("X", ⟨"X", "query", none, none, some (primS "string"),
          none⟩)],
        none, none, none⟩
    definitions := none, parameters2 := none, responses2 := none
    securityDefinitions := none }

/-- The normalised same-name store. -/
def c7N : NormalizedAPI :=
  ((convert (.ok c7Doc)).data).getD emptyNormalizedAPI

/-- Operation `POST /send` whose request body `$ref` target does not exist, while
a different component request body (`Stuff`) is defined. -/
def c10Doc : SpecDoc :=
  { openapi := some "3.0.0", swagger := none
    info := some ⟨"C10 API", "1.0.0", none, none⟩
    servers := none, host := none, basePath := none, schemes := none
    paths := some [("/send", ⟨none, none, some
      { operationId := some "sendIt", summary := none, description := none
        tags := none, parameters := none
        requestBody := some (.byRef "#/components/requestBodies/Missing")
        responses := none },
      none, none, none, none, none⟩)]
    components := some ⟨none, none, none,
      some [("Stuff",
        { description := none
          content := .oa3 [("application/json",
            { schema := some (JSchema.mk none (some "object")
                (some [("note", primS "string")]) none none none)
              example? := none })]
          required := some true })],
      none⟩
    definitions := none, parameters2 := none, responses2 := none
    securityDefinitions := none }

/-- The normalised dangling-request-body store. -/
def c10N : NormalizedAPI :=
  ((convert (.ok c10Doc)).data).getD emptyNormalizedAPI

/-- A store with one non-cyclic `Address` schema referenced by two
sibling properties. -/
def addressN : NormalizedAPI :=
  ⟨"api-1", emptyMetadata, [],
    [⟨"schema-address", "Address", "object", none,
      some [("street", primS "string"), ("city", primS "string")],
      none, none, none⟩],
    [], [], [], none⟩

/-- A store with one enum schema without a declared type (normalised
type defaults to `object`, the `enum` list is kept). -/
def colorN : NormalizedAPI :=
  ⟨"api-1", emptyMetadata, [],
    [⟨"schema-color", "Color", "object", none, none, none,
      some ["red", "blue"], none⟩],
    [], [], [], none⟩

/-! ### One-step equations of the field projector (shared helpers) -/

theorem eFA_nil (n : Option NormalizedAPI) (v : Finset String)
    (acc : List (String × FVal)) : extractFieldsAux n v acc [] = acc := by
  rw [extractFieldsAux.eq_def]

theorem eFA_cons_ref_props (n : NormalizedAPI) (v : Finset String)
    (acc : List (String × FVal)) (f r : String)
    (rest : List (String × JSchema)) (s : NSchema)
    (P : List (String × JSchema))
    (hr : r ≠ "") (hrv : r ∉ v)
    (hs : resolveSchemaRef r (some n) = some s) (hp : s.props = some P) :
    extractFieldsAux (some n) v acc ((f, refS r) :: rest) =
      extractFieldsAux (some n) v
        (jset acc f
          (FVal.obj (extractFieldsAux (some n) (insert r v) [] P))) rest := by
  simp only [extractFieldsAux]
  split
  next r1 h4 =>
    simp only [refS, JSchema.ref, jsTruthyS] at h4
    rw [if_pos (by simp [hr])] at h4
    cases h4
    rw [dif_neg hrv]
    split
    next resolved h5 =>
      rw [hs] at h5
      cases h5
      split
      next P2 h6 =>
        rw [hp] at h6
        cases h6
        rfl
      next h6 =>
        rw [hp] at h6
        cases h6
    next h5 =>
      rw [hs] at h5
      cases h5
  next h4 =>
    simp only [refS, JSchema.ref, jsTruthyS] at h4
    rw [if_pos (by simp [hr])] at h4
    cases h4

theorem eFA_cons_ref_circular (n : Option NormalizedAPI)
    (v : Finset String) (acc : List (String × FVal)) (f r : String)
    (rest : List (String × JSchema))
    (hr : r ≠ "") (hrv : r ∈ v) :
    extractFieldsAux n v acc ((f, refS r) :: rest) =
      extractFieldsAux n v (jset acc f (FVal.s "circular-ref")) rest := by
  simp only [extractFieldsAux]
  split
  next r1 h4 =>
    simp only [refS, JSchema.ref, jsTruthyS] at h4
    rw [if_pos (by simp [hr])] at h4
    cases h4
    rw [dif_pos hrv]
  next h4 =>
    simp only [refS, JSchema.ref, jsTruthyS] at h4
    rw [if_pos (by simp [hr])] at h4
    cases h4

theorem eFA_cons_ref_enum (n : NormalizedAPI) (v : Finset String)
    (acc : List (String × FVal)) (f r : String)
    (rest : List (String × JSchema)) (s : NSchema)
    (hr : r ≠ "") (hrv : r ∉ v)
    (hs : resolveSchemaRef r (some n) = some s) (hps : s.props = none)
    (hna : ¬ (s.ty = "array" ∧ itemsTruthy s.items = true))
    (hen : s.enm.isSome) :
    extractFieldsAux (some n) v acc ((f, refS r) :: rest) =
      extractFieldsAux (some n) v (jset acc f (FVal.s "string")) rest := by
  simp only [extractFieldsAux]
  split
  next r1 h4 =>
    simp only [refS, JSchema.ref, jsTruthyS] at h4
    rw [if_pos (by simp [hr])] at h4
    cases h4
    rw [dif_neg hrv]
    split
    next resolved h5 =>
      rw [hs] at h5
      cases h5
      split
      next P2 h6 =>
        rw [hps] at h6
        cases h6
      next h6 =>
        rw [dif_neg hna, if_pos hen]
    next h5 =>
      rw [hs] at h5
      cases h5
  next h4 =>
    simp only [refS, JSchema.ref, jsTruthyS] at h4
    rw [if_pos (by simp [hr])] at h4
    cases h4

theorem eFA_cons_inline_prim (n : Option NormalizedAPI)
    (v : Finset String) (acc : List (String × FVal)) (f : String)
    (fs : JSchema) (rest : List (String × JSchema))
    (hnr : ¬ jsTruthyS fs.ref)
    (hto : fs.ty ≠ some "object") (hta : fs.ty ≠ some "array") :
    extractFieldsAux n v acc ((f, fs) :: rest) =
      extractFieldsAux n v (jset acc f (FVal.s (jsOrD fs.ty "any"))) rest := by
  simp only [extractFieldsAux]
  split
  next r1 h4 =>
    rw [if_neg (by simpa using hnr)] at h4
    cases h4
  next h4 =>
    rw [dif_neg hto, dif_neg hta]

/-! ### Literal forms of the normalised concrete stores (each proved by
kernel evaluation of the embedded converter) -/

/-- The normalised `Category` entity. -/
def categoryEntity : NSchema :=
  ⟨"schema-category", "Category", "object", none,
    some [("parent", refS "schema-category"),
      ("children", JSchema.mk none (some "array") none
        (some (refS "#/components/schemas/Category")) none none)],
    none, none, none⟩

theorem categoryN_eq : categoryN =
    ⟨"api-category-api",
      ⟨some "Category API", none, "1.0.0", none, none, none, [], none⟩,
      [], [categoryEntity], [], [], [], none⟩ := by
  rfl

theorem categoryProps_eq : categoryProps =
    [("parent", refS "schema-category"),
     ("children", JSchema.mk none (some "array") none
       (some (refS "#/components/schemas/Category")) none none)] := by
  rfl

/-- The raw array-of-`Pet` response schema after normalisation (its
`items.$ref` is untouched: `normalizeContent` does not recurse). -/
def petArrS : JSchema :=
  JSchema.mk none (some "array") none
    (some (refS "#/components/schemas/Pet")) none none

/-- The normalised `GET /pets` endpoint. -/
def petE : Endpoint :=
  ⟨"endpoint-listpets", "/pets", "GET", some "listPets", some "List pets",
    none, none, [], none, [("200", "response-listpets-200")]⟩

/-- The normalised `200` response of `GET /pets`. -/
def petResp : NResponse :=
  ⟨"response-listpets-200", "A list of pets", none,
    some [("application/json", ⟨some (.inr petArrS), none⟩)]⟩

theorem petN_eq : petN =
    ⟨"api-pet-api",
      ⟨some "Pet API", none, "1.0.0", none, none, none, [], none⟩,
      [petE],
      [⟨"schema-pet", "Pet", "object", none,
        some [("id", primS "integer"), ("name", primS "string")],
        none, none, none⟩],
      [], [petResp], [], none⟩ := by
  rfl

/-- The normalised `GET /items` endpoint of the missing-reference
scenario: the dangling `$ref` survives unresolved next to the valid
parameter's ID. -/
def c5E : Endpoint :=
  ⟨"endpoint-listitems", "/items", "GET", some "listItems", none, none,
    none, ["#/components/parameters/DoesNotExist", "param-limit"], none, []⟩

theorem c5N_eq : c5N =
    ⟨"api-c5-api",
      ⟨some "C5 API", none, "1.0.0", none, none, none, [], none⟩,
      [c5E], [],
      [⟨"param-limit", "limit", "query", none, none, some (primS "integer")⟩],
      [], [], none⟩ := by
  rfl

/-- The normalised `GET /stuff` endpoint whose only response is `202`. -/
def c6E : Endpoint :=
  ⟨"endpoint-getstuff", "/stuff", "GET", some "getStuff", none, none,
    none, [], none, [("202", "response-getstuff-202")]⟩

theorem c6N_eq : c6N =
    ⟨"api-c6-api",
      ⟨some "C6 API", none, "1.0.0", none, none, none, [], none⟩,
      [c6E], [], [],
      [⟨"response-getstuff-202", "Accepted", none,
        some [("application/json",
          ⟨some (.inr (JSchema.mk none (some "object")
            (some [("ok", primS "string")]) none none none)), none⟩)]⟩],
      [], none⟩ := by
  rfl

theorem c7N_eq : c7N =
    ⟨"api-c7-api",
      ⟨some "C7 API", none, "1.0.0", none, none, none, [], none⟩,
      [⟨"endpoint-getx", "/x", "GET", some "getX", none, none, none,
        ["schema-x"], none, []⟩],
      [⟨"schema-x", "X", "object", none, some [("a", primS "string")],
        none, none, none⟩],
      [⟨"param-x", "X", "query", none, none, some (primS "string")⟩],
      [], [], none⟩ := by
  rfl

/-- The component request body `Stuff` after normalisation. -/
def stuffBody : NRequestBody :=
  ⟨"request-body-stuff", none,
    [("application/json", ⟨some (.inr (JSchema.mk none (some "object")
      (some [("note", primS "string")]) none none none)), none⟩)],
    some true⟩

/-- The normalised `POST /send` endpoint with its dangling request-body
reference. -/
def c10E : Endpoint :=
  ⟨"endpoint-sendit", "/send", "POST", some "sendIt", none, none, none,
    [], some "#/components/requestBodies/Missing", []⟩

theorem c10N_eq : c10N =
    ⟨"api-c10-api",
      ⟨some "C10 API", none, "1.0.0", none, none, none, [], none⟩,
      [c10E], [], [], [], [stuffBody], none⟩ := by
  rfl

/-! ### Claims -/

/-- C1 (amended): projecting the cyclic `Category` property map always
terminates.  The call in which both spellings of the `Category`
reference are already in the visited set yields exactly
`{ parent: "circular-ref", children: ["circular-ref"] }`; the outermost
call — empty visited set, as `createSimplifiedFieldView` invokes
`extractFields` — yields that sentinel map only at the recursive
re-entry points, one reference hop deeper. -/
theorem C1_cycle_projection :
    extractFields categoryProps (some categoryN)
      (insert "#/components/schemas/Category" {"schema-category"}) =
      [("parent", FVal.s "circular-ref"),
       ("children", FVal.arr [FVal.s "circular-ref"])] ∧
    extractFields categoryProps (some categoryN) ∅ =
      [("parent", FVal.obj
         [("parent", FVal.s "circular-ref"),
          ("children", FVal.arr [FVal.obj
            [("parent", FVal.s "circular-ref"),
             ("children", FVal.arr [FVal.s "circular-ref"])]])]),
       ("children", FVal.arr [FVal.obj
         [("parent", FVal.obj
            [("parent", FVal.s "circular-ref"),
             ("children", FVal.arr [FVal.s "circular-ref"])]),
          ("children", FVal.arr [FVal.s "circular-ref"])]])] := by
  constructor <;>
    (simp only [categoryProps_eq, categoryN_eq]
     simp [extractFields, extractFieldsAux, resolveSchemaRef, jsTruthyS,
    jsStartsWith, jsToLower, replaceFirst, firstSplit, JSchema.ref,
    JSchema.ty, JSchema.props, JSchema.items, JSchema.enm, JSchema.addProps,
    refS, primS, jset, jget, jsOrD, jsStrOr, itemsTruthy, itemsRef,
    itemsProps, itemsTy, categoryEntity, List.find?])

/-- C1 counterexample: with the empty visited set — the way
`createSimplifiedFieldView` invokes the projector — the result for the
cyclic `Category` property map is not
`{ parent: "circular-ref", children: ["circular-ref"] }`: on the first
visit nothing is in the visited set, so both properties resolve one
level before the sentinel appears. -/
theorem C1_counterexample :
    extractFields categoryProps (some categoryN) ∅ ≠
      [("parent", FVal.s "circular-ref"),
       ("children", FVal.arr [FVal.s "circular-ref"])] := by
  simp only [categoryProps_eq, categoryN_eq]
  simp [extractFields, extractFieldsAux, resolveSchemaRef, jsTruthyS,
    jsStartsWith, jsToLower, replaceFirst, firstSplit, JSchema.ref,
    JSchema.ty, JSchema.props, JSchema.items, JSchema.enm, JSchema.addProps,
    refS, primS, jset, jget, jsOrD, jsStrOr, itemsTruthy, itemsRef,
    itemsProps, itemsTy, categoryEntity, List.find?]

/-- C2: the field projection and both view builders are total functions
of the normalised document — for every store (cyclic reference graphs
included), every property map and every visited set they return a value
and cannot throw.  Totality is certified by Lean's termination checker
for `extractFieldsAux`: each descent through a reference inserts it
into the visited set, whose complement inside the finite set of
reference strings of the store shrinks (`card_measure_lt`), and all
other recursion is structural. -/
theorem C2_projection_total (napi : NormalizedAPI)
    (props : List (String × JSchema)) (v : Finset String) :
    (∃ r, extractFields props (some napi) v = r) ∧
    (∃ sv, createSimplifiedFieldView napi = sv) ∧
    (∃ fv, convertToFieldView napi = fv) :=
  ⟨⟨_, rfl⟩, ⟨_, rfl⟩, ⟨_, rfl⟩⟩

/-- C3: sibling independence — two properties referencing the same
resolvable target schema each produce the full projection of the
target's property map, both with the same per-branch visited set
`insert r v`: the visited set handed to the second sibling is the
caller's `v`, unchanged by the first sibling's descent. -/
theorem C3_sibling_independence (n : NormalizedAPI) (v : Finset String)
    (acc : List (String × FVal)) (a b r : String)
    (rest : List (String × JSchema)) (s : NSchema)
    (P : List (String × JSchema))
    (hr : r ≠ "") (hrv : r ∉ v)
    (hs : resolveSchemaRef r (some n) = some s) (hp : s.props = some P) :
    extractFieldsAux (some n) v acc ((a, refS r) :: (b, refS r) :: rest) =
      extractFieldsAux (some n) v
        (jset (jset acc a
            (FVal.obj (extractFieldsAux (some n) (insert r v) [] P)))
          b (FVal.obj (extractFieldsAux (some n) (insert r v) [] P)))
        rest := by
  rw [eFA_cons_ref_props n v acc a r _ s P hr hrv hs hp,
    eFA_cons_ref_props n v _ b r rest s P hr hrv hs hp]

/-- Witness for C3 at the `Address` example: `shippingAddress` and
`billingAddress` both resolve to the full projected `Address` shape. -/
theorem C3_witness :
    extractFieldsAux (some addressN) ∅ []
      [("shippingAddress", refS "schema-address"),
       ("billingAddress", refS "schema-address")] =
      [("shippingAddress",
        FVal.obj [("street", FVal.s "string"), ("city", FVal.s "string")]),
       ("billingAddress",
        FVal.obj [("street", FVal.s "string"), ("city", FVal.s "string")])] := by
  rw [C3_sibling_independence addressN ∅ [] "shippingAddress"
    "billingAddress" "schema-address" []
    ⟨"schema-address", "Address", "object", none,
      some [("street", primS "string"), ("city", primS "string")],
      none, none, none⟩
    [("street", primS "string"), ("city", primS "string")]
    (by decide) (by simp) (by rfl) (by rfl)]
  rw [eFA_nil]
  simp [extractFieldsAux, jsTruthyS, primS, JSchema.ref, JSchema.ty, jset,
    jsOrD]

/-- C4 (amended): `convert` reports `success: false` exactly when the
text failed to parse or the parsed document has no `info` section (the
`spec.info.title` access then throws inside `normalizeSwagger` and the
same `catch` produces the failure result); a parse failure carries the
parser's message and no data; any parsed document with an `info`
section converts with `success: true`, a normalised document, and the
collected warnings. -/
theorem C4_error_policy (p : Except String SpecDoc) :
    ((convert p).success = false ↔
      (∃ m, p = .error m) ∨ (∃ d, p = .ok d ∧ d.info = none)) ∧
    (∀ m, p = .error m →
      (convert p).error = some m ∧ (convert p).data = none) ∧
    (∀ d, p = .ok d → (d.info).isSome →
      (convert p).success = true ∧
      (∃ na, (convert p).data = some na) ∧
      (convert p).warnings = some (collectWarnings d)) := by
  cases p with
  | error m => simp [convert]
  | ok d =>
    cases hd : d.info with
    | none => simp [convert, normalizeSwagger, hd]
    | some info => simp [convert, normalizeSwagger, hd]

/-- Witness for C4: a parse failure keeps its message with no data, and
the well-formed `Pet` document converts successfully. -/
theorem C4_witness :
    (convert (.error "bad document")).error = some "bad document" ∧
    (convert (.ok petDoc)).success = true := by
  refine ⟨((C4_error_policy (.error "bad document")).2.1 _ rfl).1, ?_⟩
  exact ((C4_error_policy (.ok petDoc)).2.2 petDoc rfl (by rfl)).1

/-- C4 counterexample: the empty object — the parse of the
syntactically valid JSON text `{}` — does not convert successfully:
`normalizeSwagger` throws on `spec.info.title` and `convert` reports
`success: false`, so a successful parse does not imply `success:
true`. -/
theorem C4_counterexample :
    convert (.ok emptyDoc) =
      ⟨false, none, some "Cannot read properties of undefined", none⟩ := by
  rfl

/-- C5 (amended): when an endpoint carries one parameter reference
whose lookup fails next to one valid parameter, the simplified view's
parameters map contains only the valid parameter — and the full field
view likewise contains only the valid parameter's entry: its builder
skips a failed lookup without adding any placeholder (`find` then `if
(paramData)` with no else branch). -/
theorem C5_missing_param_omitted (n : NormalizedAPI) (e : Endpoint)
    (bad good : String) (p q : NParameter)
    (hparams : e.parameters = [bad, good])
    (h1 : n.parameters.find?
      (fun x => x.id == resolveParameterRef bad) = none)
    (h2 : n.parameters.find? (fun x => x.id == bad) = none)
    (h3 : n.parameters.find?
      (fun x => x.id == resolveParameterRef good) = some p)
    (h4 : n.parameters.find? (fun x => x.id == good) = some q) :
    (simplifiedEndpointEntry n e).parameters =
      [(p.name, jsOrD (p.schema.bind JSchema.ty) "string")] ∧
    (fvOperation n e).parameters = [(q.name, fvParamOf q)] := by
  constructor
  · simp [simplifiedEndpointEntry, simplifiedParams, hparams, h1, h3, jset]
  · simp [fvOperation, hparams, h2, h4, jset]

/-- Witness for C5 at the normalised missing-reference store. -/
theorem C5_witness :
    (simplifiedEndpointEntry c5N c5E).parameters = [("limit", "integer")] ∧
    (fvOperation c5N c5E).parameters =
      [("limit", ⟨"query", "integer", none, none⟩)] := by
  have h := C5_missing_param_omitted c5N c5E
    "#/components/parameters/DoesNotExist" "param-limit"
    ⟨"param-limit", "limit", "query", none, none, some (primS "integer")⟩
    ⟨"param-limit", "limit", "query", none, none, some (primS "integer")⟩
    rfl (by rfl) (by rfl) (by rfl) (by rfl)
  simpa [jsOrD, jsTruthyS, primS, JSchema.ty, fvParamOf] using h

/-- C5 counterexample: in the field view built from the
missing-reference store, the `GET /items` operation's parameters map is
exactly the single valid entry — no placeholder entry for the failed
`#/components/parameters/DoesNotExist` lookup exists anywhere in it
(while the simplified view, as the claim states, also keeps only the
valid parameter). -/
theorem C5_counterexample :
    ((jget (convertToFieldView c5N).paths "/items").bind
      (fun inner => jget inner "get")).map FVOperation.parameters =
      some [("limit", ⟨"query", "integer", none, none⟩)] ∧
    (jget (createSimplifiedFieldView c5N).endpoints "GET /items").map
      SEntry.parameters = some [("limit", "integer")] := by
  constructor
  · rfl
  · rfl

/-- C6 (amended): an endpoint's `response_fields` in the simplified
view is the projection of the response whose status code is the first
key equal to `200` or `201` (not any 2xx code): an object schema with
properties projects to the field map, an array of objects to a
one-element array of the projected item shape, and an array of
primitives to a one-element array of the primitive type name. -/
theorem C6_response_fields (n : NormalizedAPI) (e : Endpoint)
    (c rid : String) (resp : NResponse) (sref : String ⊕ JSchema)
    (hc : (e.responses.map Prod.fst).find?
      (fun x => x == "200" || x == "201") = some c)
    (hg : jget e.responses c = some rid)
    (hr : n.responses.find? (fun x => x.id == rid) = some resp)
    (hs : (resp.content.bind (fun ct => jget ct "application/json")).bind
      MT.schema = some sref)
    (ht : itemsTruthy (some sref)) :
    (∀ P, rsProps (resolveSchema sref n) = some P →
      (simplifiedEndpointEntry n e).response_fields =
        FVal.obj (extractFields P (some n) ∅)) ∧
    (rsProps (resolveSchema sref n) = none →
      rsTy (resolveSchema sref n) = some "array" →
      itemsTruthy (rsItems (resolveSchema sref n)) →
      (∀ PI, rsProps (resolveSchema
          ((rsItems (resolveSchema sref n)).getD (.inl "")) n) = some PI →
        (simplifiedEndpointEntry n e).response_fields =
          FVal.arr [FVal.obj (extractFields PI (some n) ∅)]) ∧
      (rsProps (resolveSchema
          ((rsItems (resolveSchema sref n)).getD (.inl "")) n) = none →
        (simplifiedEndpointEntry n e).response_fields =
          FVal.arr [FVal.s (rsTyOrAny (resolveSchema
            ((rsItems (resolveSchema sref n)).getD (.inl "")) n))])) := by
  constructor
  · intro P hP
    simp [simplifiedEndpointEntry, simplifiedResponseFields, hc, hg, hr,
      hs, ht, hP]
  · intro hP hty hit
    constructor
    · intro PI hPI
      simp [simplifiedEndpointEntry, simplifiedResponseFields, hc, hg, hr,
        hs, ht, hP, hty, hit, hPI]
    · intro hPI
      simp [simplifiedEndpointEntry, simplifiedResponseFields, hc, hg, hr,
        hs, ht, hP, hty, hit, hPI]

/-- Witness for C6: the round-trip scenario — `GET /pets` returns an
array of `Pet{id: integer, name: string}` and the simplified view's
`response_fields` is `[{ id: "integer", name: "string" }]`. -/
theorem C6_witness :
    (jget (createSimplifiedFieldView petN).endpoints "GET /pets").map
      SEntry.response_fields =
      some (FVal.arr [FVal.obj
        [("id", FVal.s "integer"), ("name", FVal.s "string")]]) := by
  have hfold : (createSimplifiedFieldView petN).endpoints =
      [("GET /pets", simplifiedEndpointEntry petN petE)] := rfl
  have h := ((C6_response_fields petN petE "200" "response-listpets-200"
    petResp (.inr petArrS) rfl rfl (by rfl) (by rfl) (by rfl)).2
    (by rfl) (by rfl) (by rfl)).1
    [("id", primS "integer"), ("name", primS "string")] (by rfl)
  rw [hfold]
  simp only [jget, List.find?]
  norm_num [h]
  simp only [petN_eq]
  simp [extractFields, extractFieldsAux, jsTruthyS, primS, JSchema.ref,
    JSchema.ty, jset, jsOrD]

/-- C6 counterexample: for a document whose only response is `202`
(a 2xx code that is neither 200 nor 201) carrying a JSON object schema
with properties, `response_fields` stays the initial empty map instead
of the projection of that schema: the view only looks for the literal
codes `200` and `201`. -/
theorem C6_counterexample :
    (jget (createSimplifiedFieldView c6N).endpoints "GET /stuff").map
      SEntry.response_fields = some (FVal.obj []) ∧
    FVal.obj [] ≠
      FVal.obj (extractFields [("ok", primS "string")] (some c6N) ∅) := by
  constructor
  · rfl
  · simp [extractFields, extractFieldsAux, jsTruthyS, primS, JSchema.ref,
      JSchema.ty, jset, jsOrD]

/-- C7 (amended): the field-view parameter resolver does map every
`#/components/parameters/*` spelling into the `param-*` namespace, but
the normaliser's `resolveRef` — which endpoint extraction applies to
parameter `$refs` before any parameter has been registered — falls back
to the schema-name map keyed by the trailing path segment, so a
parameter reference to `X` resolves to the `schema-*` ID whenever a
schema named `X` exists. -/
theorem C7_param_namespace :
    (∀ name : String, resolveParameterRef
      ("#/components/parameters/" ++ name) = "param-" ++ sanitizeId name) ∧
    (∀ (st : CState) (ref sid : String),
      jget st.componentRefs ref = none →
      lastSegment ref ≠ "" →
      jget st.schemaRefs (lastSegment ref) = some sid →
      resolveRef st ref = sid) := by
  constructor
  · intro name
    have hsplit : firstSplit ("#/components/parameters/" ++ name).data
        "#/components/parameters/".data =
        some ([], name.data) := by
      rw [firstSplit.eq_def]
      simp [String.data_append, List.take_left, List.drop_left]
    rw [resolveParameterRef]
    rw [if_pos]
    · rw [replaceFirst, hsplit]
      simp
    · simp [jsStartsWith, String.data_append, List.take_left]
  · intro st ref sid h1 h2 h3
    simp [resolveRef, h1, h2, h3]

/-- Witness for C7: the resolver outcomes at the name `X`. -/
theorem C7_witness :
    resolveParameterRef "#/components/parameters/X" = "param-x" ∧
    resolveRef ⟨[], [("X", "schema-x")], []⟩
      "#/components/parameters/X" = "schema-x" := by
  constructor
  · exact C7_param_namespace.1 "X"
  · exact C7_param_namespace.2 ⟨[], [("X", "schema-x")], []⟩
      "#/components/parameters/X" "schema-x" rfl (by decide) rfl

/-- C7 counterexample: in a document defining both a schema `X` and a
parameter `X`, the endpoint's parameter reference
`#/components/parameters/X` is stored resolved to `schema-x` — the
schema entity's ID, not the `param-x` ID the same-named parameter
receives. -/
theorem C7_counterexample :
    c7N.endpoints.map Endpoint.parameters = [["schema-x"]] ∧
    c7N.schemas.map NSchema.id = ["schema-x"] ∧
    c7N.parameters.map NParameter.id = ["param-x"] := by
  refine ⟨?_, ?_, ?_⟩ <;> rfl

/-- C8 (amended): an inline schema (no truthy `$ref`) is returned
as-is; a `$ref` marker or a bare string ID whose target exists returns
that schema entity; but the two unknown-ID fallbacks of `resolveSchema`
are not null: an unknown marker yields the marker itself and an unknown
bare string yields `{ type: "object" }`.  It is `resolveSchemaRef` that
resolves unknown IDs to null (`none`), always drawing its result from
the schema collection.  All resolvers are total (they never throw). -/
theorem C8_resolver_contract :
    (∀ (j : JSchema) (n : NormalizedAPI), ¬ jsTruthyS j.ref →
      resolveSchema (.inr j) n = .raw j) ∧
    (∀ (j : JSchema) (n : NormalizedAPI) (s : NSchema), jsTruthyS j.ref →
      n.schemas.find? (fun x => x.id == jsToLower (replaceFirst
        (j.ref.getD "") "#/components/schemas/" "schema-")) = some s →
      resolveSchema (.inr j) n = .norm s) ∧
    (∀ (j : JSchema) (n : NormalizedAPI), jsTruthyS j.ref →
      n.schemas.find? (fun x => x.id == jsToLower (replaceFirst
        (j.ref.getD "") "#/components/schemas/" "schema-")) = none →
      resolveSchema (.inr j) n = .raw j) ∧
    (∀ (str : String) (n : NormalizedAPI) (s : NSchema),
      n.schemas.find? (fun x => x.id == str) = some s →
      resolveSchema (.inl str) n = .norm s) ∧
    (∀ (str : String) (n : NormalizedAPI),
      n.schemas.find? (fun x => x.id == str) = none →
      resolveSchema (.inl str) n =
        .raw (JSchema.mk none (some "object") none none none none)) ∧
    (∀ (r : String) (n : NormalizedAPI) (s : NSchema),
      resolveSchemaRef r (some n) = some s → s ∈ n.schemas) ∧
    (∀ r : String, resolveSchemaRef r none = none) := by
  refine ⟨?_, ?_, ?_, ?_, ?_, ?_, ?_⟩
  · intro j n h
    simp [resolveSchema, h]
  · intro j n s h hf
    simp [resolveSchema, h, hf]
  · intro j n h hf
    simp [resolveSchema, h, hf]
  · intro str n s hf
    simp [resolveSchema, hf]
  · intro str n hf
    simp [resolveSchema, hf]
  · intro r n s h
    exact List.mem_of_find?_eq_some h
  · intro r
    rfl

/-- Witness for C8 at a one-schema store. -/
theorem C8_witness :
    resolveSchema (.inr (primS "integer")) addressN =
      .raw (primS "integer") ∧
    resolveSchema (.inr (refS "schema-address")) addressN =
      .norm ⟨"schema-address", "Address", "object", none,
        some [("street", primS "string"), ("city", primS "string")],
        none, none, none⟩ ∧
    resolveSchema (.inl "schema-address") addressN =
      .norm ⟨"schema-address", "Address", "object", none,
        some [("street", primS "string"), ("city", primS "string")],
        none, none, none⟩ := by
  refine ⟨?_, ?_, ?_⟩
  · exact C8_resolver_contract.1 (primS "integer") addressN (by decide)
  · exact C8_resolver_contract.2.1 (refS "schema-address") addressN _
      (by decide) (by rfl)
  · exact C8_resolver_contract.2.2.2.1 "schema-address" addressN _ (by rfl)

/-- C8 counterexample: for an ID that matches no schema in the
collection, `resolveSchema` does not resolve to null — an unknown
`{ $ref }` marker comes back as the marker itself and an unknown bare
string as `{ type: "object" }`; only `resolveSchemaRef` yields null. -/
theorem C8_counterexample :
    resolveSchema (.inr (refS "schema-zzz")) emptyNormalizedAPI =
      .raw (refS "schema-zzz") ∧
    resolveSchema (.inl "schema-zzz") emptyNormalizedAPI =
      .raw (JSchema.mk none (some "object") none none none none) ∧
    resolveSchemaRef "schema-zzz" (some emptyNormalizedAPI) = none := by
  refine ⟨?_, ?_, ?_⟩ <;> rfl

/-- C9 (amended): a schema with an `enum` reached through a reference
projects to `"string"` whatever its property name, nesting depth or
declared type (the enum test precedes the type fallback); an inline
enum schema projects to `"string"` only when it also declares
`type: "string"` — an inline enum without a declared type projects to
`"any"` (the inline branches never inspect `enum`). -/
theorem C9_enum_collapse :
    (∀ (n : NormalizedAPI) (v : Finset String)
      (acc : List (String × FVal)) (f r : String)
      (rest : List (String × JSchema)) (s : NSchema),
      r ≠ "" → r ∉ v → resolveSchemaRef r (some n) = some s →
      s.props = none → ¬ (s.ty = "array" ∧ itemsTruthy s.items = true) →
      (s.enm).isSome →
      extractFieldsAux (some n) v acc ((f, refS r) :: rest) =
        extractFieldsAux (some n) v (jset acc f (FVal.s "string")) rest) ∧
    (∀ (n : Option NormalizedAPI) (v : Finset String)
      (acc : List (String × FVal)) (f : String)
      (rest : List (String × JSchema)) (l : List String),
      extractFieldsAux n v acc
        ((f, JSchema.mk none (some "string") none none (some l) none)
          :: rest) =
        extractFieldsAux n v (jset acc f (FVal.s "string")) rest) := by
  constructor
  · intro n v acc f r rest s hr hrv hs hps hna hen
    exact eFA_cons_ref_enum n v acc f r rest s hr hrv hs hps hna hen
  · intro n v acc f rest l
    have h := eFA_cons_inline_prim n v acc f
      (JSchema.mk none (some "string") none none (some l) none) rest
      (by simp [jsTruthyS, JSchema.ref]) (by simp [JSchema.ty])
      (by simp [JSchema.ty])
    simpa [jsOrD, jsTruthyS, JSchema.ty] using h

/-- Witness for C9: through a reference, the untyped string enum
`Color` projects to `"string"`; inline with `type: "string"` it does
too. -/
theorem C9_witness :
    extractFieldsAux (some colorN) ∅ [] [("color", refS "schema-color")] =
      [("color", FVal.s "string")] ∧
    extractFieldsAux (some colorN) ∅ []
      [("shade", JSchema.mk none (some "string") none none
        (some ["light", "dark"]) none)] =
      [("shade", FVal.s "string")] := by
  constructor
  · rw [C9_enum_collapse.1 colorN ∅ [] "color" "schema-color" []
      ⟨"schema-color", "Color", "object", none, none, none,
        some ["red", "blue"], none⟩
      (by decide) (by simp) (by rfl) (by rfl) (by decide) (by rfl)]
    rw [eFA_nil]
    rfl
  · rw [C9_enum_collapse.2 (some colorN) ∅ [] "shade" [] ["light", "dark"]]
    rw [eFA_nil]
    rfl

/-- C9 counterexample: an inline schema whose `enum` has string members
but which declares no `type` projects to `"any"`, not `"string"`: the
inline path of the projector never looks at `enum`. -/
theorem C9_counterexample :
    extractFields
      [("color", JSchema.mk none none none none (some ["red", "blue"]) none)]
      (some emptyNormalizedAPI) ∅ =
      [("color", FVal.s "any")] ∧
    FVal.s "any" ≠ FVal.s "string" := by
  constructor
  · simp [extractFields, extractFieldsAux, jsTruthyS, JSchema.ref,
      JSchema.ty, JSchema.props, JSchema.addProps, jset, jsOrD]
  · simp

/-- C10: when an endpoint's request-body ID matches nothing in a
non-empty request-body collection, the simplified view does not omit
the body: it uses the first request body whose ID contains `body` or
the lowercased method, or failing that the collection's first element —
a body that does not belong to the endpoint (its ID differs from the
endpoint's reference), and `request_fields` is computed from it. -/
theorem C10_requestBody_fallback (n : NormalizedAPI) (method rbId : String)
    (b0 : NRequestBody) (rest : List NRequestBody)
    (hl : n.requestBodies = b0 :: rest)
    (hmiss : n.requestBodies.find? (fun b => b.id == rbId) = none) :
    chooseRequestBody n method rbId =
      some ((n.requestBodies.find? (fun b => jsIncludes b.id "body" ||
        jsIncludes b.id (jsToLower method))).getD b0) ∧
    ((n.requestBodies.find? (fun b => jsIncludes b.id "body" ||
      jsIncludes b.id (jsToLower method))).getD b0).id ≠ rbId ∧
    ((n.requestBodies.find? (fun b => jsIncludes b.id "body" ||
      jsIncludes b.id (jsToLower method))).getD b0) ∈ n.requestBodies ∧
    (rbId ≠ "" →
      simplifiedRequestFields n method (some rbId) =
        (let body := (n.requestBodies.find? (fun b =>
            jsIncludes b.id "body" ||
            jsIncludes b.id (jsToLower method))).getD b0
         let sref := (jget body.content "application/json").bind MT.schema
         if itemsTruthy sref then
           match rsProps (resolveSchema (sref.getD (.inl "")) n) with
           | some P => FVal.obj (extractFields P (some n) ∅)
           | none => FVal.obj []
         else FVal.obj [])) := by
  have hmem : ((n.requestBodies.find? (fun b => jsIncludes b.id "body" ||
      jsIncludes b.id (jsToLower method))).getD b0) ∈ n.requestBodies := by
    cases hf : n.requestBodies.find? (fun b => jsIncludes b.id "body" ||
        jsIncludes b.id (jsToLower method)) with
    | none => simp [hl]
    | some fb =>
      simp only [Option.getD_some]
      exact List.mem_of_find?_eq_some hf
  have hne : ((n.requestBodies.find? (fun b => jsIncludes b.id "body" ||
      jsIncludes b.id (jsToLower method))).getD b0).id ≠ rbId := by
    have hall := List.find?_eq_none.mp hmiss _ hmem
    simpa using hall
  have hchoose : chooseRequestBody n method rbId =
      some ((n.requestBodies.find? (fun b => jsIncludes b.id "body" ||
        jsIncludes b.id (jsToLower method))).getD b0) := by
    rw [chooseRequestBody, hmiss]
    rw [if_pos (by simp [hl])]
    cases hf : n.requestBodies.find? (fun b => jsIncludes b.id "body" ||
        jsIncludes b.id (jsToLower method)) with
    | none => simp [hl]
    | some fb => simp
  refine ⟨hchoose, hne, hmem, ?_⟩
  intro hrb
  rw [simplifiedRequestFields, if_pos (by simp [jsTruthyS, hrb])]
  simp only [Option.getD_some]
  rw [hchoose]

/-- Witness for C10 at the dangling-request-body store: `POST /send`
references `#/components/requestBodies/Missing`, and the view computes
`request_fields` from the unrelated component body `Stuff`. -/
theorem C10_witness :
    chooseRequestBody c10N "POST" "#/components/requestBodies/Missing" =
      some stuffBody ∧
    stuffBody.id ≠ "#/components/requestBodies/Missing" ∧
    (simplifiedEndpointEntry c10N c10E).request_fields =
      FVal.obj [("note", FVal.s "string")] := by
  have h := C10_requestBody_fallback c10N "POST"
    "#/components/requestBodies/Missing" stuffBody [] (by rfl) (by rfl)
  refine ⟨?_, ?_, ?_⟩
  · have h1 := h.1
    rw [h1]
    rfl
  · have h2 := h.2.1
    simpa using h2
  · have h4 := h.2.2.2 (by decide)
    have hrf : (simplifiedEndpointEntry c10N c10E).request_fields =
        simplifiedRequestFields c10N "POST"
          (some "#/components/requestBodies/Missing") := rfl
    rw [hrf, h4]
    simp only []
    norm_num [stuffBody, jget, MT.schema, itemsTruthy]
    simp [resolveSchema, jsTruthyS, JSchema.ref, rsProps, extractFields,
      extractFieldsAux, primS, JSchema.ty, JSchema.props, jset, jsOrD,
      List.find?]
